import Mathlib

/-!
# Verification of the APK editor's signing, packaging and stub-building core

This file embeds, as executable Lean definitions, the parts of the
`apk-editor-windows` repository that its specification makes claims about:

* the JAR-signing subsystem: `_create_manifest_mf_advanced` /
  `_create_cert_sf_advanced` / `_create_signed_apk` (`apk_editor.py`) and
  `_create_enhanced_manifest_mf` / `_create_enhanced_cert_sf` /
  `_create_realistic_signed_apk` (`utils/apktool.py`);
* the DEX stub builder `_create_realistic_dex` (`utils/apktool.py`);
* the control flow of `compile_apk`, `_sign_apk_advanced`,
  `get_compiled_apk_path` (`apk_editor.py`) and of
  `decompile` / `_simulate_decompile` (`utils/apktool.py`).

Python `str` values are modelled as `List Char` (a Python string is a sequence
of code points), Python `bytes` as `List Nat` (each element a byte value).
`str.split`, `str.join`, `str.startswith`, `str.strip`, slicing and
`encode('utf-8')` are given executable models below with the exact Python
semantics.  SHA-1, SHA-256, base64 and Adler-32 are implemented in full so
that digests evaluate to their real values on concrete inputs.
-/

/-- Model of a Python `str`: a list of code points. -/
abbrev PStr := List Char

/-- Embed a Lean string literal as a `PStr`. -/
def ps (s : String) : PStr := s.data

/-- Carriage return. -/
def CRc : Char := '\r'

/-- Line feed. -/
def LFc : Char := '\n'

/-- The CRLF line terminator `"\r\n"` used throughout the JAR-signing code. -/
def crlf : PStr := [CRc, LFc]

/-- The blank-line separator `"\r\n\r\n"` that `_create_cert_sf_advanced` and
`_create_enhanced_cert_sf` split manifests on. -/
def crlf2 : PStr := [CRc, LFc, CRc, LFc]

/-- Prepend a character to the first piece of a split result (helper for the
`str.split` models). -/
def consHead (c : Char) : List PStr → List PStr
  | [] => [[c]]
  | h :: t => (c :: h) :: t

/-- Model of Python `s.split('\r\n')`: greedy left-to-right scan, cutting at
every occurrence of CRLF. -/
def splitCRLF : PStr → List PStr
  | [] => [[]]
  | [c] => [[c]]
  | c1 :: c2 :: t =>
    if c1 = CRc ∧ c2 = LFc then [] :: splitCRLF t
    else consHead c1 (splitCRLF (c2 :: t))

/-- Model of Python `s.split('\r\n\r\n')`: greedy left-to-right scan, cutting at
every (non-overlapping) occurrence of CRLF CRLF. -/
def splitCRLF2 : PStr → List PStr
  | [] => [[]]
  | [c] => [[c]]
  | [c1, c2] => [[c1, c2]]
  | [c1, c2, c3] => [[c1, c2, c3]]
  | c1 :: c2 :: c3 :: c4 :: t =>
    if c1 = CRc ∧ c2 = LFc ∧ c3 = CRc ∧ c4 = LFc then [] :: splitCRLF2 t
    else consHead c1 (splitCRLF2 (c2 :: c3 :: c4 :: t))

/-- Model of Python `sep.join(pieces)`. -/
def pyJoin (sep : PStr) : List PStr → PStr
  | [] => []
  | [x] => x
  | x :: y :: t => x ++ sep ++ pyJoin sep (y :: t)

/-- Model of Python `s.startswith(p)`. -/
def pyStartsWith (p s : PStr) : Bool := List.isPrefixOf p s

/-- Python's default `str.strip` whitespace set (ASCII part; all strings fed to
`strip` by this code are ASCII). -/
def pyWhitespace (c : Char) : Bool :=
  c = ' ' ∨ c = '\t' ∨ c = '\n' ∨ c = '\r' ∨ c = '\x0b' ∨ c = '\x0c'

/-- Model of Python `s.strip()`. -/
def pyStrip (s : PStr) : PStr :=
  ((s.dropWhile pyWhitespace).reverse.dropWhile pyWhitespace).reverse

/-- Model of Python `s.encode('utf-8')` for a single character. -/
def utf8Char (c : Char) : List Nat :=
  let n := c.toNat
  if n < 128 then [n]
  else if n < 2048 then [192 + n / 64, 128 + n % 64]
  else if n < 65536 then [224 + n / 4096, 128 + n / 64 % 64, 128 + n % 64]
  else [240 + n / 262144, 128 + n / 4096 % 64, 128 + n / 64 % 64, 128 + n % 64]

/-- Model of Python `s.encode('utf-8')`. -/
def utf8Bytes (s : PStr) : List Nat := s.flatMap utf8Char

/-- Big-endian byte encoding of `n` in `w` bytes (Python `n.to_bytes(w, 'big')`,
faithful for `n < 256 ^ w`). -/
def beBytes : Nat → Nat → List Nat
  | 0, _ => []
  | w + 1, n => beBytes w (n / 256) ++ [n % 256]

/-- Little-endian byte encoding of `n` in `w` bytes
(Python `n.to_bytes(w, 'little')`, faithful for `n < 256 ^ w`). -/
def leBytes : Nat → Nat → List Nat
  | 0, _ => []
  | w + 1, n => n % 256 :: leBytes w (n / 256)

/-- Truncate to a 32-bit word. -/
def w32 (n : Nat) : Nat := n % 4294967296

/-- Rotate a 32-bit word left by `b` bits (`0 < b < 32`, argument `< 2 ^ 32`). -/
def rotl32 (b n : Nat) : Nat := n * 2 ^ b % 4294967296 + n / 2 ^ (32 - b)

/-- Bitwise complement of a 32-bit word (argument `< 2 ^ 32`). -/
def not32 (n : Nat) : Nat := 4294967295 - n

/-- SHA-1 / SHA-256 message padding: `0x80`, zeros to 56 mod 64, then the
bit length as an 8-byte big-endian integer. -/
def shaPad (m : List Nat) : List Nat :=
  m ++ [128] ++ List.replicate ((119 - m.length % 64) % 64) 0 ++ beBytes 8 (8 * m.length)

/-- Split a byte list into 64-byte blocks (`fuel` bounds the recursion; it is
always called with `fuel = l.length`, which suffices). -/
def chunks64Go : Nat → List Nat → List (List Nat)
  | _, [] => []
  | 0, l => [l]
  | fuel + 1, l => l.take 64 :: chunks64Go fuel (l.drop 64)

/-- Split a byte list into 64-byte blocks. -/
def chunks64 (l : List Nat) : List (List Nat) := chunks64Go l.length l

/-- Big-endian 32-bit words of a 64-byte block. -/
def wordsOfBlock : List Nat → List Nat
  | b1 :: b2 :: b3 :: b4 :: t =>
    (((b1 * 256 + b2) * 256 + b3) * 256 + b4) :: wordsOfBlock t
  | _ => []

/-- SHA-1 message schedule extension: emit `n` further words from the sliding
window of the previous 16 (head the oldest), each new word being
`rotl32 1 (w[i-3] ^^^ w[i-8] ^^^ w[i-14] ^^^ w[i-16])`. -/
def sha1SchedGo : Nat → List Nat → List Nat
  | 0, _ => []
  | n + 1, a0 :: a1 :: a2 :: a3 :: a4 :: a5 :: a6 :: a7 :: a8 :: a9 :: a10 :: a11 :: a12 ::
      a13 :: a14 :: a15 :: _ =>
    let w := rotl32 1 (a13 ^^^ a8 ^^^ a2 ^^^ a0)
    w :: sha1SchedGo n [a1, a2, a3, a4, a5, a6, a7, a8, a9, a10, a11, a12, a13, a14, a15, w]
  | _ + 1, _ => []

/-- SHA-1 message schedule: extend the 16 block words to 80 (`wordsOfBlock` of
a 64-byte block always yields exactly 16 words). -/
def sha1Schedule (w16 : List Nat) : List Nat := w16 ++ sha1SchedGo 64 w16

/-- SHA-1 round function. -/
def sha1F (t b c d : Nat) : Nat :=
  if t < 20 then (b &&& c) ||| (not32 b &&& d)
  else if t < 40 then b ^^^ c ^^^ d
  else if t < 60 then (b &&& c) ||| (b &&& d) ||| (c &&& d)
  else b ^^^ c ^^^ d

/-- SHA-1 round constants. -/
def sha1K (t : Nat) : Nat :=
  if t < 20 then 1518500249
  else if t < 40 then 1859775393
  else if t < 60 then 2400959708
  else 3395469782

/-- SHA-1 state: five 32-bit words. -/
abbrev Sha1St := Nat × Nat × Nat × Nat × Nat

/-- The 80 SHA-1 rounds, consuming the schedule words in order (`t` is the
round index, used for the round function and constant). -/
def sha1Rounds : Nat → Sha1St → List Nat → Sha1St
  | _, st, [] => st
  | t, st, wt :: ws =>
    let tmp := w32 (rotl32 5 st.1 + sha1F t st.2.1 st.2.2.1 st.2.2.2.1 +
      st.2.2.2.2 + sha1K t + wt)
    sha1Rounds (t + 1) (tmp, st.1, rotl32 30 st.2.1, st.2.2.1, st.2.2.2.1) ws

/-- SHA-1 compression of one 64-byte block. -/
def sha1Compress (h : Sha1St) (block : List Nat) : Sha1St :=
  let s := sha1Rounds 0 h (sha1Schedule (wordsOfBlock block))
  (w32 (h.1 + s.1), w32 (h.2.1 + s.2.1), w32 (h.2.2.1 + s.2.2.1),
    w32 (h.2.2.2.1 + s.2.2.2.1), w32 (h.2.2.2.2 + s.2.2.2.2))

/-- SHA-1 of a byte sequence (20-byte digest), modelling `hashlib.sha1(...)
.digest()`. -/
def SHA1 (m : List Nat) : List Nat :=
  let s := (chunks64 (shaPad m)).foldl sha1Compress
    (1732584193, 4023233417, 2562383102, 271733878, 3285377520)
  beBytes 4 s.1 ++ beBytes 4 s.2.1 ++ beBytes 4 s.2.2.1 ++
    beBytes 4 s.2.2.2.1 ++ beBytes 4 s.2.2.2.2

/-- Rotate a 32-bit word right by `b` bits. -/
def rotr32 (b n : Nat) : Nat := n / 2 ^ b + n % 2 ^ b * 2 ^ (32 - b)

/-- SHA-256 round constants. -/
def sha256K : List Nat :=
  [1116352408, 1899447441, 3049323471, 3921009573, 961987163, 1508970993, 2453635748, 2870763221,
   3624381080, 310598401, 607225278, 1426881987, 1925078388, 2162078206, 2614888103, 3248222580,
   3835390401, 4022224774, 264347078, 604807628, 770255983, 1249150122, 1555081692, 1996064986,
   2554220882, 2821834349, 2952996808, 3210313671, 3336571891, 3584528711, 113926993, 338241895,
   666307205, 773529912, 1294757372, 1396182291, 1695183700, 1986661051, 2177026350, 2456956037,
   2730485921, 2820302411, 3259730800, 3345764771, 3516065817, 3600352804, 4094571909, 275423344,
   430227734, 506948616, 659060556, 883997877, 958139571, 1322822218, 1537002063, 1747873779,
   1955562222, 2024104815, 2227730452, 2361852424, 2428436474, 2756734187, 3204031479, 3329325298]

/-- SHA-256 message schedule extension: emit `n` further words from the
sliding window of the previous 16 (head the oldest), each new word being
`w[i-16] + s0(w[i-15]) + w[i-7] + s1(w[i-2])` mod `2 ^ 32`. -/
def sha256SchedGo : Nat → List Nat → List Nat
  | 0, _ => []
  | n + 1, a0 :: a1 :: a2 :: a3 :: a4 :: a5 :: a6 :: a7 :: a8 :: a9 :: a10 :: a11 :: a12 ::
      a13 :: a14 :: a15 :: _ =>
    let s0 := rotr32 7 a1 ^^^ rotr32 18 a1 ^^^ a1 / 2 ^ 3
    let s1 := rotr32 17 a14 ^^^ rotr32 19 a14 ^^^ a14 / 2 ^ 10
    let w := w32 (a0 + s0 + a9 + s1)
    w :: sha256SchedGo n [a1, a2, a3, a4, a5, a6, a7, a8, a9, a10, a11, a12, a13, a14, a15, w]
  | _ + 1, _ => []

/-- SHA-256 message schedule: extend the 16 block words to 64. -/
def sha256Schedule (w16 : List Nat) : List Nat := w16 ++ sha256SchedGo 48 w16

/-- SHA-256 state: eight 32-bit words. -/
abbrev Sha256St := Nat × Nat × Nat × Nat × Nat × Nat × Nat × Nat

/-- The 64 SHA-256 rounds, consuming the schedule words in order (`t` is the
round index, used to select the round constant). -/
def sha256Rounds : Nat → Sha256St → List Nat → Sha256St
  | _, st, [] => st
  | t, st, wt :: ws =>
    let a := st.1
    let b := st.2.1
    let c := st.2.2.1
    let d := st.2.2.2.1
    let e := st.2.2.2.2.1
    let f := st.2.2.2.2.2.1
    let g := st.2.2.2.2.2.2.1
    let hh := st.2.2.2.2.2.2.2
    let S1 := rotr32 6 e ^^^ rotr32 11 e ^^^ rotr32 25 e
    let ch := (e &&& f) ^^^ (not32 e &&& g)
    let t1 := w32 (hh + S1 + ch + sha256K.getD t 0 + wt)
    let S0 := rotr32 2 a ^^^ rotr32 13 a ^^^ rotr32 22 a
    let maj := (a &&& b) ^^^ (a &&& c) ^^^ (b &&& c)
    let t2 := w32 (S0 + maj)
    sha256Rounds (t + 1) (w32 (t1 + t2), a, b, c, w32 (d + t1), e, f, g) ws

/-- SHA-256 compression of one 64-byte block. -/
def sha256Compress (h : Sha256St) (block : List Nat) : Sha256St :=
  let s := sha256Rounds 0 h (sha256Schedule (wordsOfBlock block))
  (w32 (h.1 + s.1), w32 (h.2.1 + s.2.1), w32 (h.2.2.1 + s.2.2.1),
    w32 (h.2.2.2.1 + s.2.2.2.1), w32 (h.2.2.2.2.1 + s.2.2.2.2.1),
    w32 (h.2.2.2.2.2.1 + s.2.2.2.2.2.1), w32 (h.2.2.2.2.2.2.1 + s.2.2.2.2.2.2.1),
    w32 (h.2.2.2.2.2.2.2 + s.2.2.2.2.2.2.2))

/-- SHA-256 of a byte sequence (32-byte digest), modelling
`hashlib.sha256(...).digest()`. -/
def SHA256 (m : List Nat) : List Nat :=
  let s := (chunks64 (shaPad m)).foldl sha256Compress
    (1779033703, 3144134277, 1013904242, 2773480762, 1359893119, 2600822924, 528734635, 1541459225)
  beBytes 4 s.1 ++ beBytes 4 s.2.1 ++ beBytes 4 s.2.2.1 ++ beBytes 4 s.2.2.2.1 ++
    beBytes 4 s.2.2.2.2.1 ++ beBytes 4 s.2.2.2.2.2.1 ++ beBytes 4 s.2.2.2.2.2.2.1 ++
    beBytes 4 s.2.2.2.2.2.2.2

/-- The base64 alphabet. -/
def b64Alphabet : List Char :=
  ps "ABCDEFGHIJKLMNOPQRSTUVWXYZabcdefghijklmnopqrstuvwxyz0123456789+/"

/-- The base64 digit for a 6-bit value. -/
def b64Char (n : Nat) : Char := b64Alphabet.getD n 'A'

/-- Standard base64 encoding with padding, modelling
`base64.b64encode(...).decode('ascii')`. -/
def base64 : List Nat → PStr
  | [] => []
  | [b1] => [b64Char (b1 / 4), b64Char (b1 % 4 * 16), '=', '=']
  | [b1, b2] => [b64Char (b1 / 4), b64Char (b1 % 4 * 16 + b2 / 16), b64Char (b2 % 16 * 4), '=']
  | b1 :: b2 :: b3 :: t =>
    b64Char (b1 / 4) :: b64Char (b1 % 4 * 16 + b2 / 16) ::
      b64Char (b2 % 16 * 4 + b3 / 64) :: b64Char (b3 % 64) :: base64 t

/-- One step of the Adler-32 state update. -/
def adlerStep (ab : Nat × Nat) (c : Nat) : Nat × Nat :=
  ((ab.1 + c) % 65521, (ab.2 + ab.1 + c) % 65521)

/-- Adler-32 checksum (the DEX format's checksum algorithm), modelling
`zlib.adler32`. -/
def adler32 (m : List Nat) : Nat :=
  let s := m.foldl adlerStep (1, 0)
  s.2 * 65536 + s.1

/-! ## Archive model

A ZIP archive is modelled as the ordered list of its entries, as enumerated by
`zipfile.ZipFile.infolist()`: each entry carries its filename, the compression
method and level recorded in its `ZipInfo`, and its raw (uncompressed) content
bytes.  CPython specifics that the embedding relies on, from `zipfile.py`:

* `ZipFile.read(name)` resolves `name` through the `NameToInfo` dictionary,
  which is built by assigning `NameToInfo[info.filename] = info` for each
  central-directory entry in order — so with duplicate names the *last*
  occurrence wins;
* `ZipFile.writestr(zinfo_or_arcname, data)` uses the given `ZipInfo` as-is
  when passed one (keeping its `compress_type` / `_compresslevel`), and only
  when passed a plain string does it create a fresh `ZipInfo` carrying the
  archive-level `compression` / `compresslevel` configuration;
* `ZipInfo.is_dir()` is true iff the filename ends with `'/'`.
-/

/-- The compression method constant `zipfile.ZIP_DEFLATED`. -/
def ZIP_DEFLATED : Nat := 8

/-- A ZIP archive entry: filename, `ZipInfo.compress_type`,
`ZipInfo._compresslevel` (`none` on entries read from an archive), and content
bytes. -/
structure ZEntry where
  name : PStr
  ctype : Nat
  clevel : Option Nat
  data : List Nat
deriving DecidableEq, Repr

/-- Model of `zip_file.read(name)`: content of the last entry carrying `name`
(CPython's `NameToInfo` is last-wins); `[]` if absent (the code only reads
names obtained from `infolist()`). -/
def readEntry (entries : List ZEntry) (name : PStr) : List Nat :=
  match (entries.filter (fun e => e.name = name)).getLast? with
  | some e => e.data
  | none => []

/-- Model of `ZipInfo.is_dir()`: the filename ends with `'/'`. -/
def isDirName (name : PStr) : Bool := name.getLast? == some '/'

/-- Python string comparison `a <= b`: lexicographic on code points. -/
def pyLeChars : PStr → PStr → Bool
  | [], _ => true
  | _ :: _, [] => false
  | a :: as, b :: bs => if a < b then true else if a = b then pyLeChars as bs else false

/-! ## JAR signature builder — `apk_editor.py` ("advanced") implementation -/

/-- The entry filter of `_create_manifest_mf_advanced`:
`not item.filename.startswith('META-INF/') and not item.is_dir() and
item.filename.strip()`. -/
def manifestAdvEntryFilter (e : ZEntry) : Bool :=
  !pyStartsWith (ps "META-INF/") e.name && !isDirName e.name && !(pyStrip e.name).isEmpty

/-- The `file_entries` list of `_create_manifest_mf_advanced`: `(filename,
base64(sha1(data)))` for each digestible entry, sorted by filename
(`file_entries.sort(key=lambda x: x[0])`; Python's sort is stable, as is
`mergeSort`). -/
def fileEntriesAdvanced (entries : List ZEntry) : List (PStr × PStr) :=
  ((entries.filter manifestAdvEntryFilter).map
    (fun e => (e.name, base64 (SHA1 (readEntry entries e.name))))).mergeSort
    (fun a b => pyLeChars a.1 b.1)

/-- The `manifest_lines` list of `_create_manifest_mf_advanced` (header lines,
a blank separator, then `Name` / `SHA1-Digest` / blank for each sorted entry). -/
def manifestAdvLines (entries : List ZEntry) : List PStr :=
  [ps "Manifest-Version: 1.0", ps "Built-By: APK Editor", ps "Created-By: Android Gradle", []] ++
  (fileEntriesAdvanced entries).flatMap
    (fun p => [ps "Name: " ++ p.1, ps "SHA1-Digest: " ++ p.2, []])

/-- `_create_manifest_mf_advanced` (as text; the function returns
`'\r\n'.join(manifest_lines).encode('utf-8')`). -/
def manifestAdvanced (entries : List ZEntry) : PStr := pyJoin crlf (manifestAdvLines entries)

/-- The per-section loop body of `_create_cert_sf_advanced`: skip a section
whose `strip()` is empty, hash `(section + '\r\n').encode('utf-8')`, and take
the filename from the first `Name: ` line (the loop `break`s there); a
section without one contributes nothing. -/
def sfSectionBodyAdv (sec : PStr) : Option (PStr × PStr) :=
  if pyStrip sec = [] then none
  else
    match (splitCRLF sec).find? (fun line => pyStartsWith (ps "Name: ") line) with
    | some line => some (line.drop 6, base64 (SHA1 (utf8Bytes (sec ++ crlf))))
    | none => none

/-- The `section_entries` list built by `_create_cert_sf_advanced`: the loop
body applied to each piece of `manifest_text.split('\r\n\r\n')` after the
header. -/
def sfSectionEntriesAdv (m : PStr) : List (PStr × PStr) :=
  ((splitCRLF2 m).drop 1).filterMap sfSectionBodyAdv

/-- The `sf_lines` list of `_create_cert_sf_advanced` (header block, then the
`section_entries` sorted by filename). -/
def certSFAdvLines (m : PStr) : List PStr :=
  [ps "Signature-Version: 1.0",
   ps "SHA1-Digest-Manifest: " ++ base64 (SHA1 (utf8Bytes m)),
   ps "SHA1-Digest-Manifest-Main-Attributes: " ++
     base64 (SHA1 (utf8Bytes ((splitCRLF2 m).headD [] ++ crlf))),
   ps "Created-By: Android Gradle", []] ++
  ((sfSectionEntriesAdv m).mergeSort (fun a b => pyLeChars a.1 b.1)).flatMap
    (fun p => [ps "Name: " ++ p.1, ps "SHA1-Digest: " ++ p.2, []])

/-- `_create_cert_sf_advanced` (as text), taking the decoded MANIFEST.MF text. -/
def certSFAdvanced (m : PStr) : PStr := pyJoin crlf (certSFAdvLines m)

/-- Model of Python list slice assignment `l[i:j] = repl` (the replacement may
have a different length than the slice, as in `signer_info_seq[0:3] = [...4
bytes...]` in the source). -/
def splice (l : List Nat) (i j : Nat) (repl : List Nat) : List Nat :=
  l.take i ++ repl ++ l.drop j

/-- Model of `for i in range(lo, hi): l[i] = f(i)`. -/
def fillRange (l : List Nat) (lo hi : Nat) (f : Nat → Nat) : List Nat :=
  l.mapIdx (fun i v => if lo ≤ i ∧ i < hi then f i else v)

/-- The `x509_cert` buffer of `_create_cert_rsa_advanced` (1024-byte buffer
with header patches and the `(i + timestamp) % 256` fill over indices
50..199); `ts` models `int(time.time())`. -/
def x509CertAdv (ts : Nat) : List Nat :=
  fillRange
    (splice (splice (splice (splice (splice (List.replicate 1024 0)
      0 4 [0x30, 0x82, 0x03, 0xFF])
      4 8 [0x30, 0x82, 0x02, 0xE7])
      8 13 [0xA0, 0x03, 0x02, 0x01, 0x02])
      13 25 ([0x02, 0x09, 0x00] ++ List.replicate 9 0x01))
      25 40 [0x30, 0x0D, 0x06, 0x09, 0x2A, 0x86, 0x48, 0x86, 0xF7, 0x0D, 0x01, 0x01, 0x05, 0x05,
        0x00])
    50 200 (fun i => (i + ts) % 256)

/-- `_create_cert_rsa_advanced`: the fabricated PKCS#7-shaped CERT.RSA bytes of
the `apk_editor.py` manual signer. -/
def certRSAAdvanced (ts : Nat) : List Nat :=
  let x509 := x509CertAdv ts
  let certSet := [0xA0, 0x82] ++ beBytes 2 x509.length ++ x509
  let signerInfoSeq :=
    fillRange (splice (splice (List.replicate 512 0) 0 3 [0x30, 0x82, 0x01, 0xFF])
      4 7 [0x02, 0x01, 0x01]) 20 256 (fun i => (i * 7 + ts) % 256)
  let signerInfo := [0x31, 0x82] ++ beBytes 2 signerInfoSeq.length ++ signerInfoSeq
  let signedData := [0x30, 0x82] ++ [0x02, 0x01, 0x01] ++
    [0x31, 0x0D, 0x30, 0x0B, 0x06, 0x09, 0x60, 0x86, 0x48, 0x01,
     0x65, 0x03, 0x04, 0x02, 0x01, 0x05, 0x00] ++
    [0x30, 0x0B, 0x06, 0x09, 0x2A, 0x86, 0x48, 0x86, 0xF7, 0x0D, 0x01, 0x07, 0x01] ++
    beBytes 2 certSet.length ++ certSet ++
    beBytes 2 signerInfo.length ++ signerInfo
  let certBody := [0x06, 0x09, 0x2A, 0x86, 0x48, 0x86, 0xF7, 0x0D, 0x01, 0x07, 0x02] ++
    [0xA0, 0x82] ++ beBytes 2 signedData.length ++ signedData
  [0x30, 0x82] ++ beBytes 2 certBody.length ++ certBody

/-- A fresh entry written by `output_zip.writestr(arcname_string, data)`: the
created `ZipInfo` carries the destination archive's configuration
(`ZIP_DEFLATED`, `compresslevel=6`). -/
def newZEntry (name : PStr) (data : List Nat) : ZEntry :=
  { name := name, ctype := ZIP_DEFLATED, clevel := some 6, data := data }

/-- The copy loop shared by `_create_signed_apk` and
`_create_realistic_signed_apk`: every `infolist()` item whose name does not
start with `META-INF/` is re-written via `output_zip.writestr(item,
input_zip.read(item.filename))` — the source `ZipInfo` (name, compression
method/level) is reused as-is, with content looked up by name. -/
def copiedEntries (entries : List ZEntry) : List ZEntry :=
  (entries.filter (fun e => !pyStartsWith (ps "META-INF/") e.name)).map
    (fun e => { e with data := readEntry entries e.name })

/-- `_create_signed_apk` (`apk_editor.py`): output archive of the manual
signing fallback; `ts` models `int(time.time())` used by the CERT.RSA builder. -/
def createSignedApk (ts : Nat) (entries : List ZEntry) : List ZEntry :=
  copiedEntries entries ++
  [newZEntry (ps "META-INF/MANIFEST.MF") (utf8Bytes (manifestAdvanced entries)),
   newZEntry (ps "META-INF/CERT.SF") (utf8Bytes (certSFAdvanced (manifestAdvanced entries))),
   newZEntry (ps "META-INF/CERT.RSA") (certRSAAdvanced ts)]

/-! ## JAR signature builder — `utils/apktool.py` ("enhanced") implementation -/

/-- The entry filter of `_create_enhanced_manifest_mf`:
`not item.filename.startswith('META-INF/') and not item.is_dir()` (no
`strip()` check, unlike the advanced variant). -/
def manifestEnhEntryFilter (e : ZEntry) : Bool :=
  !pyStartsWith (ps "META-INF/") e.name && !isDirName e.name

/-- The per-entry digest data of `_create_enhanced_manifest_mf`: `(filename,
base64(sha1(data)), base64(sha256(data)))` in `infolist()` enumeration order
(this variant performs no sort). -/
def fileEntriesEnhanced (entries : List ZEntry) : List (PStr × PStr × PStr) :=
  (entries.filter manifestEnhEntryFilter).map
    (fun e => (e.name, base64 (SHA1 (readEntry entries e.name)),
      base64 (SHA256 (readEntry entries e.name))))

/-- The `manifest_lines` list of `_create_enhanced_manifest_mf`; `buildDate`
models the `datetime.now().isoformat()` baked into the header. -/
def manifestEnhLines (buildDate : PStr) (entries : List ZEntry) : List PStr :=
  [ps "Manifest-Version: 1.0", ps "Built-By: APK Editor Pro",
   ps "Created-By: APK Editor Enhanced System", ps "Build-Date: " ++ buildDate, []] ++
  (fileEntriesEnhanced entries).flatMap
    (fun p => [ps "Name: " ++ p.1, ps "SHA1-Digest: " ++ p.2.1,
      ps "SHA-256-Digest: " ++ p.2.2, []])

/-- `_create_enhanced_manifest_mf` (as text). -/
def manifestEnhanced (buildDate : PStr) (entries : List ZEntry) : PStr :=
  pyJoin crlf (manifestEnhLines buildDate entries)

/-- The per-section loop body of `_create_enhanced_cert_sf`: like the advanced
variant, but hashing `(section + '\r\n\r\n').encode('utf-8')`. -/
def sfSectionBodyEnh (sec : PStr) : Option (PStr × PStr) :=
  if pyStrip sec = [] then none
  else
    match (splitCRLF sec).find? (fun line => pyStartsWith (ps "Name: ") line) with
    | some line => some (line.drop 6, base64 (SHA1 (utf8Bytes (sec ++ crlf2))))
    | none => none

/-- The per-section digest pairs of `_create_enhanced_cert_sf`, in enumeration
order (this variant performs no sort). -/
def sfSectionEntriesEnh (m : PStr) : List (PStr × PStr) :=
  ((splitCRLF2 m).drop 1).filterMap sfSectionBodyEnh

/-- The `sf_lines` list of `_create_enhanced_cert_sf`; `sigDate` models the
`datetime.now().isoformat()` baked into the header. -/
def certSFEnhLines (sigDate : PStr) (m : PStr) : List PStr :=
  [ps "Signature-Version: 1.0",
   ps "SHA1-Digest-Manifest: " ++ base64 (SHA1 (utf8Bytes m)),
   ps "SHA1-Digest-Manifest-Main-Attributes: " ++
     base64 (SHA1 (utf8Bytes ((splitCRLF2 m).headD [] ++ crlf))),
   ps "Created-By: APK Editor Enhanced",
   ps "Signature-Date: " ++ sigDate, []] ++
  (sfSectionEntriesEnh m).flatMap
    (fun p => [ps "Name: " ++ p.1, ps "SHA1-Digest: " ++ p.2, []])

/-- `_create_enhanced_cert_sf` (as text). -/
def certSFEnhanced (sigDate : PStr) (m : PStr) : PStr := pyJoin crlf (certSFEnhLines sigDate m)

/-- The `signed_data` buffer of `_create_enhanced_cert_rsa` (3072-byte buffer,
header patches, two pseudo-random fills, then the X.509 header patch at 2000). -/
def signedDataEnh (ts : Nat) : List Nat :=
  splice
    (fillRange (fillRange
      (splice (splice (splice (List.replicate 3072 0)
        0 3 [0x02, 0x01, 0x01])
        3 15 [0x31, 0x0B, 0x30, 0x09, 0x06, 0x05, 0x2B, 0x0E, 0x03, 0x02, 0x1A, 0x05])
        15 30 [0x30, 0x0B, 0x06, 0x09, 0x2A, 0x86, 0x48, 0x86, 0xF7, 0x0D, 0x01, 0x07, 0x01, 0x05,
          0x00])
      50 1000 (fun i => (i + ts + 127) % 256))
      1500 2012 (fun i => (i * 7 + ts) % 256))
    2000 2010 [0x30, 0x82, 0x02, 0x5C, 0x30, 0x82, 0x01, 0x45, 0xA0, 0x03]

/-- `_create_enhanced_cert_rsa`: the fabricated CERT.RSA bytes of the
`utils/apktool.py` signer. -/
def certRSAEnhanced (ts : Nat) : List Nat :=
  let certBody := [0x06, 0x09, 0x2A, 0x86, 0x48, 0x86, 0xF7, 0x0D, 0x01, 0x07, 0x02] ++
    [0xA0, 0x82] ++ signedDataEnh ts
  [0x30, 0x82] ++ beBytes 2 certBody.length ++ certBody

/-- `_create_realistic_signed_apk` (`utils/apktool.py`): output archive of
`APKTool.sign_apk`. -/
def createRealisticSignedApk (ts : Nat) (buildDate sigDate : PStr) (entries : List ZEntry) :
    List ZEntry :=
  copiedEntries entries ++
  [newZEntry (ps "META-INF/MANIFEST.MF") (utf8Bytes (manifestEnhanced buildDate entries)),
   newZEntry (ps "META-INF/CERT.SF")
     (utf8Bytes (certSFEnhanced sigDate (manifestEnhanced buildDate entries))),
   newZEntry (ps "META-INF/CERT.RSA") (certRSAEnhanced ts)]

/-! ## DEX stub builder — `_create_realistic_dex` (`utils/apktool.py`) -/

/-- Decimal string of a number (Python `str(n)`). -/
def natStr (n : Nat) : PStr := (toString n).data

/-- The opcode chosen for offset `i` in the bytecode pattern:
`[0x12, 0x13, 0x1A, 0x6E, 0x70][i % 5]`. -/
def dexOpcode (i : Nat) : Nat := [0x12, 0x13, 0x1A, 0x6E, 0x70].getD (i % 5) 0

/-- One iteration of the bytecode-pattern chunk builder: a zeroed buffer of
`size` bytes where every complete 4-byte group at offset `i = 4 * g` holds
`[opcode(i), (i / 4) % 256] ++ (i / 4).to_bytes(2, 'little')`. -/
def dexChunk (size : Nat) : List Nat :=
  (List.range (size / 4)).flatMap
    (fun g => [dexOpcode (4 * g), g % 256, g % 256, g / 256]) ++
  List.replicate (size % 4) 0

/-- The `while len(dex_data) < file_size` fill loop: each iteration appends a
fresh pattern chunk of `min(4096, remaining)` bytes, so the loop contributes
`remaining / 4096` full 4096-byte chunks followed by one chunk of
`remaining % 4096` bytes. -/
def dexFill (remaining : Nat) : List Nat :=
  (List.replicate (remaining / 4096) (dexChunk 4096)).flatten ++ dexChunk (remaining % 4096)

/-- The `file_size` computed by `_create_realistic_dex`:
`max(target_size // 8, 100000)`. -/
def dexFileSize (target_size : Nat) : Nat := max (target_size / 8) 100000

/-- The 112-byte DEX header assembled by `_create_realistic_dex` (magic,
placeholder Adler-32 checksum `0xDEADBEEF`, SHA-1 of `str(file_size)` as
signature placeholder, then the size/offset table; the section sizes are the
constants from the source and the offsets are the sums it computes from them).
Integer fields are serialized with `n.to_bytes(4, 'little')` (faithful for
values below `2 ^ 32`; Python raises `OverflowError` beyond, which only an
astronomically large size hint could trigger). -/
def dexHeaderBytes (file_size : Nat) : List Nat :=
  let string_ids_size := 100
  let string_ids_off := 112
  let type_ids_size := 50
  let type_ids_off := string_ids_off + string_ids_size * 4
  let proto_ids_size := 20
  let proto_ids_off := type_ids_off + type_ids_size * 4
  let field_ids_size := 30
  let field_ids_off := proto_ids_off + proto_ids_size * 12
  let method_ids_size := 40
  let method_ids_off := field_ids_off + field_ids_size * 8
  let class_defs_size := 5
  let class_defs_off := method_ids_off + method_ids_size * 8
  let data_size := file_size - class_defs_off - class_defs_size * 32
  let data_off := class_defs_off + class_defs_size * 32
  [0x64, 0x65, 0x78, 0x0A, 0x30, 0x33, 0x35, 0x00] ++
  leBytes 4 0xDEADBEEF ++
  SHA1 (utf8Bytes (natStr file_size)) ++
  leBytes 4 file_size ++ leBytes 4 0x70 ++ leBytes 4 0x12345678 ++
  leBytes 4 0 ++ leBytes 4 0 ++ leBytes 4 (file_size - 1024) ++
  leBytes 4 string_ids_size ++ leBytes 4 string_ids_off ++
  leBytes 4 type_ids_size ++ leBytes 4 type_ids_off ++
  leBytes 4 proto_ids_size ++ leBytes 4 proto_ids_off ++
  leBytes 4 field_ids_size ++ leBytes 4 field_ids_off ++
  leBytes 4 method_ids_size ++ leBytes 4 method_ids_off ++
  leBytes 4 class_defs_size ++ leBytes 4 class_defs_off ++
  leBytes 4 data_size ++ leBytes 4 data_off

/-- `dex_data` after the `while len(dex_data) < 112` padding and the string-ID
and type-ID sections (`string_data_off = data_off + i * 20` with
`data_off = 1672`; `descriptor_idx = i % string_ids_size`). -/
def dexWithIds (file_size : Nat) : List Nat :=
  let headerPadded := dexHeaderBytes file_size ++
    List.replicate (112 - (dexHeaderBytes file_size).length) 0
  headerPadded ++
  (List.range 100).flatMap (fun i => leBytes 4 (1672 + i * 20)) ++
  (List.range 50).flatMap (fun i => leBytes 4 (i % 100))

/-- `_create_realistic_dex`: header and ID sections, then the bytecode-pattern
fill up to `file_size`, then `dex_data[:file_size]`. -/
def createRealisticDex (target_size : Nat) : List Nat :=
  let file_size := dexFileSize target_size
  (dexWithIds file_size ++ dexFill (file_size - (dexWithIds file_size).length)).take file_size

/-- Read a 4-byte little-endian field of a byte buffer at offset `off`
(the DEX header accessor used to state the claims). -/
def readLE4 (l : List Nat) (off : Nat) : Nat :=
  l.getD off 0 + 256 * (l.getD (off + 1) 0 + 256 * (l.getD (off + 2) 0 + 256 * l.getD (off + 3) 0))

/-! ## Control flow — `compile_apk`, `get_compiled_apk_path`,
`_sign_apk_advanced` (`apk_editor.py`), `decompile` (`utils/apktool.py`)

Outcomes of external effects (the apktool/java subprocesses, filesystem
predicates, the two validation helpers — whose results depend on the
filesystem and toolchain state) are abstracted as boolean parameters; the
control flow around them is transcribed exactly. -/

/-- `compile_apk`: `compileOk` models `self.apktool.compile(...)`,
`structureOk` models `self._validate_apk_structure(output_path)`, `signOk`
models `self.apktool.sign_apk(...)`, `signedValidOk` models
`self._validate_signed_apk(signed_path)`.  Returns the path the route
returns, or `none` for Python `None`. -/
def compileApk (projectsFolder projectId : PStr)
    (compileOk structureOk signOk signedValidOk : Bool) : Option PStr :=
  let project_dir := projectsFolder ++ ps "/" ++ projectId
  let output_path := project_dir ++ ps "/compiled.apk"
  if compileOk then
    if structureOk then
      let signed_path := project_dir ++ ps "/signed.apk"
      if signOk then
        if signedValidOk then some signed_path else some output_path
      else some output_path
    else none
  else none

/-- `get_compiled_apk_path`: `fileExists` models `os.path.exists`. -/
def getCompiledApkPath (fileExists : PStr → Bool) (projectsFolder projectId : PStr) :
    Option PStr :=
  let project_dir := projectsFolder ++ ps "/" ++ projectId
  let signed_path := project_dir ++ ps "/signed.apk"
  if fileExists signed_path then some signed_path
  else
    let compiled_path := project_dir ++ ps "/compiled.apk"
    if fileExists compiled_path then some compiled_path
    else none

/-- The fallback chain of `_sign_apk_advanced`: try each named method in
order; on the first success return `true` without attempting later methods;
record which methods were attempted. -/
def runSignerChain : List (PStr × Bool) → Bool × List PStr
  | [] => (false, [])
  | (name, ok) :: rest =>
    if ok then (true, [name])
    else
      let r := runSignerChain rest
      (r.1, name :: r.2)

/-- `_sign_apk_advanced`: `_sign_with_jarsigner`, then `_sign_with_apksigner`,
then `_create_signed_apk`, each attempt's outcome abstracted as a boolean
(each helper catches its own exceptions and returns a boolean).  The first
component is the returned success flag, the second the attempted methods. -/
def signApkAdvanced (jarsignerOk apksignerOk manualOk : Bool) : Bool × List PStr :=
  runSignerChain
    [(ps "jarsigner", jarsignerOk), (ps "apksigner", apksignerOk), (ps "manual", manualOk)]

/-! ## Decompilation — `decompile` / `_simulate_decompile` (`utils/apktool.py`)
and `decompile_apk` (`apk_editor.py`) -/

/-- What `_simulate_decompile` leaves inside the output directory. -/
structure SimProjectDir where
  scaffoldDirs : Bool
  extractedFromZip : Bool
  sampleResources : Bool
  sampleManifest : Bool
  apktoolYml : Bool
deriving DecidableEq, Repr

/-- `_simulate_decompile`: creates the scaffold directories, then tries
`zipfile.ZipFile(apk_path).extractall` — `zipReadable` models whether that
succeeds (it raises `BadZipFile` on a non-ZIP input, which the function
catches, logging a warning and synthesizing sample resources instead).
`manifestPresent` models whether `AndroidManifest.xml` exists after
extraction.  It returns `True` in all of these cases. -/
def simulateDecompile (zipReadable manifestPresent : Bool) : Bool × SimProjectDir :=
  (true,
   { scaffoldDirs := true
     extractedFromZip := zipReadable
     sampleResources := !zipReadable
     sampleManifest := !(zipReadable && manifestPresent)
     apktoolYml := true })

/-- `APKTool.decompile`: `toolchain = none` models a missing apktool/java
(straight to simulation); `some rc` models the subprocess result, with any
non-zero exit or raised exception also falling back to simulation.  The
second component is the simulated directory content (`none` when the real
apktool produced the output). -/
def apktoolDecompile (toolchain : Option Bool) (zipReadable manifestPresent : Bool) :
    Bool × Option SimProjectDir :=
  match toolchain with
  | some true => (true, none)
  | some false =>
    let r := simulateDecompile zipReadable manifestPresent
    (r.1, some r.2)
  | none =>
    let r := simulateDecompile zipReadable manifestPresent
    (r.1, some r.2)

/-- What `decompile_apk` leaves in the project directory on success. -/
structure ProjectDirState where
  decompiled : Option SimProjectDir
  metadataWritten : Bool
  originalApkCopied : Bool
deriving DecidableEq, Repr

/-- `decompile_apk` (`apk_editor.py`): on decompile success it writes
`metadata.json`, copies the original APK and returns `True`; on failure it
removes the whole project directory (`shutil.rmtree`) and returns `False`,
modelled by a `none` directory state. -/
def decompileApk (toolchain : Option Bool) (zipReadable manifestPresent : Bool) :
    Bool × Option ProjectDirState :=
  let r := apktoolDecompile toolchain zipReadable manifestPresent
  if r.1 then
    (true, some { decompiled := r.2, metadataWritten := true, originalApkCopied := true })
  else (false, none)

/-! ## Definitions used to state the claims -/

/-- Look up an entry's content in an output archive by name (first match —
used only for the three fresh `META-INF/` names, which occur once). -/
def findEntryData (l : List ZEntry) (name : PStr) : Option (List Nat) :=
  (l.find? (fun e => e.name = name)).map (fun e => e.data)

/-- A list of line groups flattened into a `'\r\n'.join`-ready line list, each
group followed by one blank line (the shape of `manifest_lines` / `sf_lines`). -/
def groupsToLines (gs : List (List PStr)) : List PStr := gs.flatMap (fun g => g ++ [[]])

/-- A line (or filename) that contains neither CR nor LF, so that it survives
the CRLF-based serialization and re-splitting intact. -/
def LineOK (l : PStr) : Prop := ∀ c ∈ l, c ≠ CRc ∧ c ≠ LFc

instance (l : PStr) : Decidable (LineOK l) := by unfold LineOK; infer_instance

/-- The two lines of a per-entry MANIFEST.MF section of the advanced
implementation, for a `(filename, sha1-b64)` pair. -/
def secLinesAdv (p : PStr × PStr) : List PStr :=
  [ps "Name: " ++ p.1, ps "SHA1-Digest: " ++ p.2]

/-- The three lines of a per-entry MANIFEST.MF section of the enhanced
implementation, for a `(filename, sha1-b64, sha256-b64)` triple. -/
def secLinesEnh (p : PStr × PStr × PStr) : List PStr :=
  [ps "Name: " ++ p.1, ps "SHA1-Digest: " ++ p.2.1, ps "SHA-256-Digest: " ++ p.2.2]

/-- The exact serialized bytes of an advanced per-entry section as the spec
describes them: every line CRLF-terminated, plus the trailing blank-line
terminator. -/
def canonSecAdv (p : PStr × PStr) : PStr := pyJoin crlf (secLinesAdv p) ++ crlf ++ crlf

/-- The exact serialized bytes of an enhanced per-entry section as the spec
describes them: every line CRLF-terminated, plus the trailing blank-line
terminator. -/
def canonSecEnh (p : PStr × PStr × PStr) : PStr := pyJoin crlf (secLinesEnh p) ++ crlf ++ crlf

/-- The `Name:` values of a manifest text, in order of appearance (split into
CRLF lines, keep the `Name: ` lines, drop the prefix). -/
def namesOfManifest (m : PStr) : List PStr :=
  ((splitCRLF m).filter (fun l => pyStartsWith (ps "Name: ") l)).map (fun l => l.drop 6)

set_option maxRecDepth 100000

set_option maxHeartbeats 2000000

/-! # Theorems

First a toolkit about the string primitives: Python-order facts,
join/split inverses, and the blank-line section structure of generated
manifests. -/

theorem consHead_cons (c : Char) (h : PStr) (t : List PStr) :
    consHead c (h :: t) = (c :: h) :: t := rfl

theorem pyJoin_cons (sep x y : PStr) (t : List PStr) :
    pyJoin sep (x :: y :: t) = x ++ sep ++ pyJoin sep (y :: t) := rfl

theorem pyJoin_append (sep : PStr) (a b : List PStr) (ha : a ≠ []) (hb : b ≠ []) :
    pyJoin sep (a ++ b) = pyJoin sep a ++ sep ++ pyJoin sep b := by
  induction a with
  | nil => exact absurd rfl ha
  | cons x xs ih =>
    cases xs with
    | nil =>
      cases b with
      | nil => exact absurd rfl hb
      | cons y ys => simp [pyJoin_cons, pyJoin]
    | cons x2 xs2 =>
      have h2 := ih (by simp)
      simp only [List.cons_append] at h2 ⊢
      rw [pyJoin_cons, h2, pyJoin_cons]
      simp [List.append_assoc]

theorem pyJoin_append_blank (sep : PStr) (a : List PStr) (ha : a ≠ []) :
    pyJoin sep (a ++ [[]]) = pyJoin sep a ++ sep := by
  rw [pyJoin_append sep a [[]] ha (by simp)]
  simp [pyJoin]

theorem splitCRLF_crlf (t : PStr) : splitCRLF (CRc :: LFc :: t) = [] :: splitCRLF t := by
  simp [splitCRLF]

theorem splitCRLF_cons_ne (c : Char) (s : PStr) (h : c ≠ CRc) :
    splitCRLF (c :: s) = consHead c (splitCRLF s) := by
  cases s with
  | nil => rfl
  | cons c2 t => simp [splitCRLF, h]

theorem splitCRLF2_quad (t : PStr) :
    splitCRLF2 (CRc :: LFc :: CRc :: LFc :: t) = [] :: splitCRLF2 t := by
  simp [splitCRLF2]

theorem splitCRLF2_cons_ne (c : Char) (s : PStr) (h : c ≠ CRc) :
    splitCRLF2 (c :: s) = consHead c (splitCRLF2 s) := by
  match s with
  | [] => rfl
  | [a] => rfl
  | [a, b] => rfl
  | a :: b :: d :: t => simp [splitCRLF2, h]

theorem splitCRLF2_crlf_ne (c : Char) (s : PStr) (h : c ≠ CRc) :
    splitCRLF2 (CRc :: LFc :: c :: s) =
      consHead CRc (consHead LFc (splitCRLF2 (c :: s))) := by
  match s with
  | [] => simp [splitCRLF2, h, consHead]
  | a :: t =>
    rw [show splitCRLF2 (CRc :: LFc :: c :: a :: t) =
      consHead CRc (splitCRLF2 (LFc :: c :: a :: t)) from by simp [splitCRLF2, h]]
    rw [splitCRLF2_cons_ne LFc (c :: a :: t) (by decide)]

theorem splitCRLF_single (l : PStr) (h : ∀ c ∈ l, c ≠ CRc) : splitCRLF l = [l] := by
  induction l with
  | nil => rfl
  | cons c t ih =>
    rw [splitCRLF_cons_ne c t (h c (by simp)), ih (fun x hx => h x (by simp [hx]))]
    rfl

theorem splitCRLF_append_crlf (l r : PStr) (h : ∀ c ∈ l, c ≠ CRc) :
    splitCRLF (l ++ (crlf ++ r)) = l :: splitCRLF r := by
  induction l with
  | nil => simpa [crlf] using splitCRLF_crlf r
  | cons c t ih =>
    rw [List.cons_append, splitCRLF_cons_ne c _ (h c (by simp)),
      ih (fun x hx => h x (by simp [hx]))]
    rfl

theorem splitCRLF_join (lines : List PStr) (hne : lines ≠ [])
    (h : ∀ l ∈ lines, ∀ c ∈ l, c ≠ CRc) : splitCRLF (pyJoin crlf lines) = lines := by
  induction lines with
  | nil => exact absurd rfl hne
  | cons l rest ih =>
    cases rest with
    | nil => exact splitCRLF_single l (h l (by simp))
    | cons l2 rest2 =>
      rw [pyJoin_cons, List.append_assoc,
        splitCRLF_append_crlf l _ (h l (by simp)),
        ih (by simp) (fun x hx => h x (by simp [hx]))]

theorem splitCRLF2_line_sep (l r : PStr) (h : ∀ c ∈ l, c ≠ CRc) :
    splitCRLF2 (l ++ (crlf2 ++ r)) = l :: splitCRLF2 r := by
  induction l with
  | nil => simpa [crlf2] using splitCRLF2_quad r
  | cons c t ih =>
    rw [List.cons_append, splitCRLF2_cons_ne c _ (h c (by simp)),
      ih (fun x hx => h x (by simp [hx]))]
    rfl

theorem pyJoin_cons_head (sep : PStr) (c : Char) (t : PStr) (g : List PStr) :
    ∃ u, pyJoin sep ((c :: t) :: g) = c :: u := by
  cases g with
  | nil => exact ⟨t, rfl⟩
  | cons y ys => exact ⟨t ++ sep ++ pyJoin sep (y :: ys), rfl⟩


theorem splitCRLF2_single_crlf (l : PStr) (h : ∀ c ∈ l, c ≠ CRc) :
    splitCRLF2 (l ++ crlf) = [l ++ crlf] := by
  induction l with
  | nil => decide
  | cons c t ih =>
    rw [List.cons_append, splitCRLF2_cons_ne c _ (h c (by simp)),
      ih (fun x hx => h x (by simp [hx]))]
    rfl

theorem splitCRLF2_group (g : List PStr) (l : PStr) (r : PStr)
    (hl : ∀ c ∈ l, c ≠ CRc)
    (hg : ∀ l2 ∈ g, l2 ≠ [] ∧ ∀ c ∈ l2, c ≠ CRc) :
    splitCRLF2 (pyJoin crlf (l :: g) ++ (crlf2 ++ r)) =
      pyJoin crlf (l :: g) :: splitCRLF2 r := by
  induction g generalizing l with
  | nil => exact splitCRLF2_line_sep l r hl
  | cons l2 g2 ih =>
    rw [pyJoin_cons]
    induction l with
    | nil =>
      obtain ⟨hne2, hcr2⟩ := hg l2 (by simp)
      obtain ⟨c2, t2, rfl⟩ := List.exists_cons_of_ne_nil hne2
      obtain ⟨u, hu⟩ := pyJoin_cons_head crlf c2 t2 g2
      have key := ih (c2 :: t2) hcr2 (fun x hx => hg x (by simp [hx]))
      rw [hu] at key ⊢
      simp only [List.nil_append, List.append_assoc, List.cons_append] at key ⊢
      rw [show (crlf ++ (c2 :: (u ++ (crlf2 ++ r))) : PStr) =
        CRc :: LFc :: c2 :: (u ++ (crlf2 ++ r)) from rfl]
      rw [splitCRLF2_crlf_ne c2 _ (hcr2 c2 (by simp)), key]
      rfl
    | cons c t ihl =>
      simp only [List.cons_append]
      rw [splitCRLF2_cons_ne c _ (hl c (by simp))]
      have ihl2 := ihl (fun x hx => hl x (by simp [hx]))
      simp only [List.cons_append] at ihl2
      rw [ihl2]
      rfl

theorem splitCRLF2_last (g : List PStr) (l : PStr)
    (hl : ∀ c ∈ l, c ≠ CRc)
    (hg : ∀ l2 ∈ g, l2 ≠ [] ∧ ∀ c ∈ l2, c ≠ CRc) :
    splitCRLF2 (pyJoin crlf (l :: g) ++ crlf) = [pyJoin crlf (l :: g) ++ crlf] := by
  induction g generalizing l with
  | nil => exact splitCRLF2_single_crlf l hl
  | cons l2 g2 ih =>
    rw [pyJoin_cons]
    induction l with
    | nil =>
      obtain ⟨hne2, hcr2⟩ := hg l2 (by simp)
      obtain ⟨c2, t2, rfl⟩ := List.exists_cons_of_ne_nil hne2
      obtain ⟨u, hu⟩ := pyJoin_cons_head crlf c2 t2 g2
      have key := ih (c2 :: t2) hcr2 (fun x hx => hg x (by simp [hx]))
      rw [hu] at key ⊢
      simp only [List.nil_append, List.append_assoc, List.cons_append] at key ⊢
      rw [show (crlf ++ (c2 :: (u ++ crlf)) : PStr) =
        CRc :: LFc :: c2 :: (u ++ crlf) from rfl]
      rw [splitCRLF2_crlf_ne c2 _ (hcr2 c2 (by simp)), key]
      rfl
    | cons c t ihl =>
      simp only [List.cons_append]
      rw [splitCRLF2_cons_ne c _ (hl c (by simp))]
      have ihl2 := ihl (fun x hx => hl x (by simp [hx]))
      simp only [List.cons_append] at ihl2
      rw [ihl2]
      rfl

theorem groupsToLines_ne_nil (g : List PStr) (gs : List (List PStr)) :
    groupsToLines (g :: gs) ≠ [] := by
  unfold groupsToLines
  cases g <;> simp

theorem splitCRLF2_sections (init : List (List PStr)) (glast : List PStr)
    (hinit : ∀ g ∈ init, g ≠ [] ∧ ∀ l ∈ g, l ≠ [] ∧ ∀ c ∈ l, c ≠ CRc)
    (hlast : glast ≠ [] ∧ ∀ l ∈ glast, l ≠ [] ∧ ∀ c ∈ l, c ≠ CRc) :
    splitCRLF2 (pyJoin crlf (groupsToLines (init ++ [glast]))) =
      init.map (pyJoin crlf) ++ [pyJoin crlf glast ++ crlf] := by
  induction init with
  | nil =>
    obtain ⟨hne, hlines⟩ := hlast
    obtain ⟨l1, rest, rfl⟩ := List.exists_cons_of_ne_nil hne
    simp only [List.nil_append, List.map_nil]
    have hjoin : pyJoin crlf (groupsToLines [l1 :: rest]) = pyJoin crlf (l1 :: rest) ++ crlf := by
      unfold groupsToLines
      simpa using pyJoin_append_blank crlf (l1 :: rest) (by simp)
    rw [hjoin]
    exact splitCRLF2_last rest l1 ((hlines l1 (by simp)).2)
      (fun x hx => hlines x (by simp [hx]))
  | cons g init2 ih =>
    obtain ⟨hgne, hglines⟩ := hinit g (by simp)
    obtain ⟨l1, rest, rfl⟩ := List.exists_cons_of_ne_nil hgne
    have hsplit : groupsToLines (((l1 :: rest) :: init2) ++ [glast]) =
        ((l1 :: rest) ++ [[]]) ++ groupsToLines (init2 ++ [glast]) := by
      simp [groupsToLines]
    rw [hsplit]
    have hbne : groupsToLines (init2 ++ [glast]) ≠ [] := by
      cases init2 with
      | nil => simpa using groupsToLines_ne_nil glast []
      | cons x xs => exact groupsToLines_ne_nil x (xs ++ [glast])
    rw [pyJoin_append crlf _ _ (by simp) hbne,
      pyJoin_append_blank crlf (l1 :: rest) (by simp)]
    have hassoc : (pyJoin crlf (l1 :: rest) ++ crlf) ++ crlf ++
        pyJoin crlf (groupsToLines (init2 ++ [glast])) =
        pyJoin crlf (l1 :: rest) ++
          (crlf2 ++ pyJoin crlf (groupsToLines (init2 ++ [glast]))) := by
      rw [show (crlf2 : PStr) = crlf ++ crlf from rfl]
      simp [List.append_assoc]
    rw [hassoc]
    rw [splitCRLF2_group rest l1 _ ((hglines l1 (by simp)).2)
      (fun x hx => hglines x (by simp [hx]))]
    rw [ih (fun x hx => hinit x (by simp [hx]))]
    simp

theorem pyLeChars_cons_iff (x y : Char) (xs ys : PStr) :
    pyLeChars (x :: xs) (y :: ys) = true ↔ (x < y ∨ (x = y ∧ pyLeChars xs ys = true)) := by
  simp only [pyLeChars]
  by_cases h1 : x < y
  · simp [h1]
  · by_cases h2 : x = y <;> simp [h1, h2]

theorem pyLeChars_total (a b : PStr) : pyLeChars a b = true ∨ pyLeChars b a = true := by
  induction a generalizing b with
  | nil => left; rfl
  | cons x xs ih =>
    cases b with
    | nil => right; rfl
    | cons y ys =>
      rcases lt_trichotomy x y with h | h | h
      · left; exact (pyLeChars_cons_iff ..).mpr (Or.inl h)
      · subst h
        rcases ih ys with h2 | h2
        · left; exact (pyLeChars_cons_iff ..).mpr (Or.inr ⟨rfl, h2⟩)
        · right; exact (pyLeChars_cons_iff ..).mpr (Or.inr ⟨rfl, h2⟩)
      · right; exact (pyLeChars_cons_iff ..).mpr (Or.inl h)

theorem pyLeChars_trans (a b c : PStr) (h1 : pyLeChars a b = true)
    (h2 : pyLeChars b c = true) : pyLeChars a c = true := by
  induction a generalizing b c with
  | nil => rfl
  | cons x xs ih =>
    cases b with
    | nil => simp [pyLeChars] at h1
    | cons y ys =>
      cases c with
      | nil => simp [pyLeChars] at h2
      | cons z zs =>
        rcases (pyLeChars_cons_iff ..).mp h1 with hxy | ⟨rfl, hxs⟩
        · rcases (pyLeChars_cons_iff ..).mp h2 with hyz | ⟨rfl, _⟩
          · exact (pyLeChars_cons_iff ..).mpr (Or.inl (lt_trans hxy hyz))
          · exact (pyLeChars_cons_iff ..).mpr (Or.inl hxy)
        · rcases (pyLeChars_cons_iff ..).mp h2 with hyz | ⟨rfl, hys⟩
          · exact (pyLeChars_cons_iff ..).mpr (Or.inl hyz)
          · exact (pyLeChars_cons_iff ..).mpr (Or.inr ⟨rfl, ih ys zs hxs hys⟩)

theorem pyLeChars_antisymm (a b : PStr) (h1 : pyLeChars a b = true)
    (h2 : pyLeChars b a = true) : a = b := by
  induction a generalizing b with
  | nil =>
    cases b with
    | nil => rfl
    | cons y ys => simp [pyLeChars] at h2
  | cons x xs ih =>
    cases b with
    | nil => simp [pyLeChars] at h1
    | cons y ys =>
      rcases (pyLeChars_cons_iff ..).mp h1 with hxy | ⟨rfl, hxs⟩
      · rcases (pyLeChars_cons_iff ..).mp h2 with hyx | ⟨rfl, _⟩
        · exact absurd hxy (lt_asymm hyx)
        · exact absurd hxy (lt_irrefl _)
      · rcases (pyLeChars_cons_iff ..).mp h2 with hyx | ⟨_, hys⟩
        · exact absurd hyx (lt_irrefl _)
        · rw [ih ys hxs hys]

theorem dropWhile_append_singleton (p : Char → Bool) (xs : List Char) (x : Char)
    (hx : p x = false) : List.dropWhile p (xs ++ [x]) ≠ [] := by
  induction xs with
  | nil => simp [List.dropWhile_cons, hx]
  | cons y ys ih =>
    rw [List.cons_append, List.dropWhile_cons]
    by_cases h : p y
    · simpa [h] using ih
    · simp [h]

theorem pyStrip_cons_ne_nil (c : Char) (s : PStr) (hc : pyWhitespace c = false) :
    pyStrip (c :: s) ≠ [] := by
  unfold pyStrip
  have h1 : List.dropWhile pyWhitespace (c :: s) = c :: s := by
    simp [List.dropWhile_cons, hc]
  rw [h1]
  intro hemp
  have h2 := List.reverse_eq_nil_iff.mp hemp
  rw [List.reverse_cons] at h2
  exact dropWhile_append_singleton pyWhitespace s.reverse c hc h2

theorem b64Char_mem (n : Nat) : b64Char n ∈ b64Alphabet := by
  unfold b64Char
  rcases lt_or_ge n b64Alphabet.length with h | h
  · rw [List.getD_eq_getElem _ _ h]
    exact List.getElem_mem h
  · rw [List.getD_eq_default _ _ h]
    decide

theorem b64Char_ok (n : Nat) : b64Char n ≠ CRc ∧ b64Char n ≠ LFc := by
  have h := b64Char_mem n
  have hall : ∀ c ∈ b64Alphabet, c ≠ CRc ∧ c ≠ LFc := by decide
  exact hall _ h

theorem base64_lineOK (bs : List Nat) : LineOK (base64 bs) := by
  match bs with
  | [] => intro c hc; simp [base64] at hc
  | [b1] =>
    intro c hc
    simp only [base64, List.mem_cons, List.not_mem_nil, or_false] at hc
    rcases hc with rfl | rfl | rfl | rfl
    · exact b64Char_ok _
    · exact b64Char_ok _
    · decide
    · decide
  | [b1, b2] =>
    intro c hc
    simp only [base64, List.mem_cons, List.not_mem_nil, or_false] at hc
    rcases hc with rfl | rfl | rfl | rfl
    · exact b64Char_ok _
    · exact b64Char_ok _
    · exact b64Char_ok _
    · decide
  | b1 :: b2 :: b3 :: b4 :: t =>
    intro c hc
    simp only [base64, List.mem_cons] at hc
    rcases hc with rfl | rfl | rfl | rfl | hmem
    · exact b64Char_ok _
    · exact b64Char_ok _
    · exact b64Char_ok _
    · exact b64Char_ok _
    · exact base64_lineOK (b4 :: t) c hmem
  | [b1, b2, b3] =>
    intro c hc
    simp only [base64, List.mem_cons] at hc
    rcases hc with rfl | rfl | rfl | rfl | hmem
    · exact b64Char_ok _
    · exact b64Char_ok _
    · exact b64Char_ok _
    · exact b64Char_ok _
    · simp [base64] at hmem

theorem beBytes_length (w n : Nat) : (beBytes w n).length = w := by
  induction w generalizing n with
  | zero => rfl
  | succ k ih => simp [beBytes, ih]

theorem SHA1_length (m : List Nat) : (SHA1 m).length = 20 := by
  unfold SHA1
  simp [beBytes_length]

theorem pyStartsWith_self_append (a b : PStr) : pyStartsWith a (a ++ b) = true := by
  unfold pyStartsWith
  exact List.isPrefixOf_iff_prefix.mpr (List.prefix_append a b)

theorem drop6_nameLine (n : PStr) : (ps "Name: " ++ n).drop 6 = n := by
  have h : (6 : Nat) = (ps "Name: ").length := rfl
  rw [h, List.drop_left]

theorem lineOK_append (a b : PStr) (ha : LineOK a) (hb : LineOK b) : LineOK (a ++ b) := by
  intro c hc
  rcases List.mem_append.mp hc with h | h
  · exact ha c h
  · exact hb c h

theorem lineOK_crfree (l : PStr) (h : LineOK l) : ∀ c ∈ l, c ≠ CRc :=
  fun c hc => (h c hc).1

theorem filterMap_map_of_some {α β γ : Type} (l : List α) (g : α → β) (f : β → Option γ)
    (k : α → γ) (h : ∀ a ∈ l, f (g a) = some (k a)) :
    List.filterMap f (l.map g) = l.map k := by
  induction l with
  | nil => rfl
  | cons a t ih =>
    rw [List.map_cons, List.filterMap_cons, h a (by simp), List.map_cons,
      ih (fun x hx => h x (by simp [hx]))]

theorem secLinesAdv_good (p : PStr × PStr) (hp1 : LineOK p.1) (hp2 : LineOK p.2) :
    ∀ l ∈ secLinesAdv p, l ≠ [] ∧ ∀ c ∈ l, c ≠ CRc := by
  intro l hl
  unfold secLinesAdv at hl
  simp only [List.mem_cons, List.not_mem_nil, or_false] at hl
  rcases hl with rfl | rfl
  · exact ⟨by simp [ps], lineOK_crfree _ (lineOK_append _ _ (by decide) hp1)⟩
  · exact ⟨by simp [ps], lineOK_crfree _ (lineOK_append _ _ (by decide) hp2)⟩

theorem secLinesEnh_good (p : PStr × PStr × PStr) (hp1 : LineOK p.1) (hp2 : LineOK p.2.1)
    (hp3 : LineOK p.2.2) : ∀ l ∈ secLinesEnh p, l ≠ [] ∧ ∀ c ∈ l, c ≠ CRc := by
  intro l hl
  unfold secLinesEnh at hl
  simp only [List.mem_cons, List.not_mem_nil, or_false] at hl
  rcases hl with rfl | rfl | rfl
  · exact ⟨by simp [ps], lineOK_crfree _ (lineOK_append _ _ (by decide) hp1)⟩
  · exact ⟨by simp [ps], lineOK_crfree _ (lineOK_append _ _ (by decide) hp2)⟩
  · exact ⟨by simp [ps], lineOK_crfree _ (lineOK_append _ _ (by decide) hp3)⟩

theorem pyStrip_nameLine_append_ne (n rest : PStr) :
    pyStrip ((ps "Name: " ++ n) ++ rest) ≠ [] := by
  have h : ((ps "Name: " ++ n) ++ rest) = 'N' :: ((ps "ame: " ++ n) ++ rest) := rfl
  rw [h]
  exact pyStrip_cons_ne_nil _ _ (by decide)

theorem find?_nameLine (n : PStr) (rest : List PStr) :
    ((ps "Name: " ++ n) :: rest).find? (fun line => pyStartsWith (ps "Name: ") line) =
      some (ps "Name: " ++ n) :=
  List.find?_cons_of_pos _ (pyStartsWith_self_append _ _)

theorem sfSectionBodyAdv_sec (p : PStr × PStr) (hp1 : LineOK p.1) (hp2 : LineOK p.2) :
    sfSectionBodyAdv (pyJoin crlf (secLinesAdv p)) =
      some (p.1, base64 (SHA1 (utf8Bytes (pyJoin crlf (secLinesAdv p) ++ crlf)))) := by
  unfold sfSectionBodyAdv
  have hshape : pyJoin crlf (secLinesAdv p) =
      (ps "Name: " ++ p.1) ++ (crlf ++ (ps "SHA1-Digest: " ++ p.2)) := by
    simp [secLinesAdv, pyJoin, List.append_assoc]
  have hstrip : ¬ pyStrip (pyJoin crlf (secLinesAdv p)) = [] := by
    rw [hshape]
    exact pyStrip_nameLine_append_ne _ _
  rw [if_neg hstrip]
  have hsplit : splitCRLF (pyJoin crlf (secLinesAdv p)) = secLinesAdv p :=
    splitCRLF_join _ (by simp [secLinesAdv])
      (fun l hl => (secLinesAdv_good p hp1 hp2 l hl).2)
  rw [hsplit, show secLinesAdv p = (ps "Name: " ++ p.1) :: [ps "SHA1-Digest: " ++ p.2] from rfl,
    find?_nameLine]
  simp [drop6_nameLine]

theorem sfSectionBodyAdv_lastsec (p : PStr × PStr) (hp1 : LineOK p.1) (hp2 : LineOK p.2) :
    sfSectionBodyAdv (pyJoin crlf (secLinesAdv p) ++ crlf) =
      some (p.1, base64 (SHA1 (utf8Bytes ((pyJoin crlf (secLinesAdv p) ++ crlf) ++ crlf)))) := by
  unfold sfSectionBodyAdv
  have hshape : pyJoin crlf (secLinesAdv p) ++ crlf =
      (ps "Name: " ++ p.1) ++ ((crlf ++ (ps "SHA1-Digest: " ++ p.2)) ++ crlf) := by
    simp [secLinesAdv, pyJoin, List.append_assoc]
  have hstrip : ¬ pyStrip (pyJoin crlf (secLinesAdv p) ++ crlf) = [] := by
    rw [hshape]
    exact pyStrip_nameLine_append_ne _ _
  rw [if_neg hstrip]
  have hsplit : splitCRLF (pyJoin crlf (secLinesAdv p) ++ crlf) = secLinesAdv p ++ [[]] := by
    rw [← pyJoin_append_blank crlf (secLinesAdv p) (by simp [secLinesAdv])]
    exact splitCRLF_join _ (by simp [secLinesAdv]) (by
      intro l hl
      rcases List.mem_append.mp hl with h | h
      · exact (secLinesAdv_good p hp1 hp2 l h).2
      · simp at h
        simp [h])
  rw [hsplit,
    show secLinesAdv p ++ [[]] = (ps "Name: " ++ p.1) :: [ps "SHA1-Digest: " ++ p.2, []] from rfl,
    find?_nameLine]
  simp [drop6_nameLine]

theorem fileEntriesAdvanced_mem (entries : List ZEntry) (p : PStr × PStr)
    (hp : p ∈ fileEntriesAdvanced entries) :
    ∃ e ∈ entries, p = (e.name, base64 (SHA1 (readEntry entries e.name))) := by
  unfold fileEntriesAdvanced at hp
  rw [List.mem_mergeSort] at hp
  obtain ⟨e, he, rfl⟩ := List.mem_map.mp hp
  exact ⟨e, (List.mem_filter.mp he).1, rfl⟩

theorem fileEntriesAdvanced_snd_ok (entries : List ZEntry) (p : PStr × PStr)
    (hp : p ∈ fileEntriesAdvanced entries) : LineOK p.2 := by
  obtain ⟨e, _, rfl⟩ := fileEntriesAdvanced_mem entries p hp
  exact base64_lineOK _

theorem manifestAdvLines_groups (entries : List ZEntry) :
    manifestAdvLines entries = groupsToLines
      ([ps "Manifest-Version: 1.0", ps "Built-By: APK Editor", ps "Created-By: Android Gradle"] ::
        (fileEntriesAdvanced entries).map secLinesAdv) := by
  unfold manifestAdvLines groupsToLines
  rw [List.flatMap_cons, List.flatMap_map]
  rfl

theorem sfSectionEntriesAdv_manifest (entries : List ZEntry)
    (h : ∀ p ∈ fileEntriesAdvanced entries, LineOK p.1) :
    sfSectionEntriesAdv (manifestAdvanced entries) =
      (fileEntriesAdvanced entries).dropLast.map
        (fun p => (p.1, base64 (SHA1 (utf8Bytes (pyJoin crlf (secLinesAdv p) ++ crlf))))) ++
      ((fileEntriesAdvanced entries).getLast?.map
        (fun p => (p.1, base64 (SHA1 (utf8Bytes
          ((pyJoin crlf (secLinesAdv p) ++ crlf) ++ crlf)))))).toList := by
  have hsnd := fileEntriesAdvanced_snd_ok entries
  unfold sfSectionEntriesAdv manifestAdvanced
  rw [manifestAdvLines_groups]
  rcases List.eq_nil_or_concat (fileEntriesAdvanced entries) with hfe | ⟨init, plast, hfe⟩
  · rw [hfe]
    rw [show ([ps "Manifest-Version: 1.0", ps "Built-By: APK Editor",
        ps "Created-By: Android Gradle"] :: (List.map secLinesAdv [])) =
      [] ++ [[ps "Manifest-Version: 1.0", ps "Built-By: APK Editor",
        ps "Created-By: Android Gradle"]] from by simp]
    rw [splitCRLF2_sections [] _ (by simp) ⟨by simp, by decide⟩]
    simp
  · rw [List.concat_eq_append] at hfe
    have hmem : ∀ p ∈ init, p ∈ fileEntriesAdvanced entries := by
      intro p hp; rw [hfe]; exact List.mem_append.mpr (Or.inl hp)
    have hmemlast : plast ∈ fileEntriesAdvanced entries := by
      rw [hfe]; exact List.mem_append.mpr (Or.inr (by simp))
    rw [hfe]
    rw [show ([ps "Manifest-Version: 1.0", ps "Built-By: APK Editor",
        ps "Created-By: Android Gradle"] :: (List.map secLinesAdv (init ++ [plast]))) =
      ([ps "Manifest-Version: 1.0", ps "Built-By: APK Editor",
        ps "Created-By: Android Gradle"] :: List.map secLinesAdv init) ++
        [secLinesAdv plast] from by simp]
    rw [splitCRLF2_sections _ _ (by
      intro g hg
      rcases List.mem_cons.mp hg with rfl | hg2
      · exact ⟨by simp, by decide⟩
      · obtain ⟨p, hp, rfl⟩ := List.mem_map.mp hg2
        exact ⟨by simp [secLinesAdv],
          secLinesAdv_good p (h p (hmem p hp)) (hsnd p (hmem p hp))⟩)
      ⟨by simp [secLinesAdv], secLinesAdv_good plast (h plast hmemlast) (hsnd plast hmemlast)⟩]
    rw [List.map_cons]
    rw [show List.drop 1 ((pyJoin crlf [ps "Manifest-Version: 1.0", ps "Built-By: APK Editor",
        ps "Created-By: Android Gradle"] ::
        List.map (pyJoin crlf) (List.map secLinesAdv init)) ++
        [pyJoin crlf (secLinesAdv plast) ++ crlf]) =
      List.map (pyJoin crlf) (List.map secLinesAdv init) ++
        [pyJoin crlf (secLinesAdv plast) ++ crlf] from by simp]
    rw [List.filterMap_append, List.map_map]
    rw [filterMap_map_of_some init (pyJoin crlf ∘ secLinesAdv) sfSectionBodyAdv
      (fun p => (p.1, base64 (SHA1 (utf8Bytes (pyJoin crlf (secLinesAdv p) ++ crlf)))))
      (fun p hp => sfSectionBodyAdv_sec p (h p (hmem p hp)) (hsnd p (hmem p hp)))]
    rw [show List.filterMap sfSectionBodyAdv [pyJoin crlf (secLinesAdv plast) ++ crlf] =
      [(plast.1, base64 (SHA1 (utf8Bytes
        ((pyJoin crlf (secLinesAdv plast) ++ crlf) ++ crlf))))] from by
      rw [List.filterMap_cons,
        sfSectionBodyAdv_lastsec plast (h plast hmemlast) (hsnd plast hmemlast)]
      rfl]
    simp

theorem sfSectionBodyEnh_sec (p : PStr × PStr × PStr) (hp1 : LineOK p.1)
    (hp2 : LineOK p.2.1) (hp3 : LineOK p.2.2) :
    sfSectionBodyEnh (pyJoin crlf (secLinesEnh p)) =
      some (p.1, base64 (SHA1 (utf8Bytes (pyJoin crlf (secLinesEnh p) ++ crlf2)))) := by
  unfold sfSectionBodyEnh
  have hshape : pyJoin crlf (secLinesEnh p) =
      (ps "Name: " ++ p.1) ++ (crlf ++ (ps "SHA1-Digest: " ++ p.2.1 ++
        (crlf ++ (ps "SHA-256-Digest: " ++ p.2.2)))) := by
    simp [secLinesEnh, pyJoin, List.append_assoc]
  have hstrip : ¬ pyStrip (pyJoin crlf (secLinesEnh p)) = [] := by
    rw [hshape]
    exact pyStrip_nameLine_append_ne _ _
  rw [if_neg hstrip]
  have hsplit : splitCRLF (pyJoin crlf (secLinesEnh p)) = secLinesEnh p :=
    splitCRLF_join _ (by simp [secLinesEnh])
      (fun l hl => (secLinesEnh_good p hp1 hp2 hp3 l hl).2)
  rw [hsplit, show secLinesEnh p = (ps "Name: " ++ p.1) ::
    [ps "SHA1-Digest: " ++ p.2.1, ps "SHA-256-Digest: " ++ p.2.2] from rfl,
    find?_nameLine]
  simp [drop6_nameLine]

theorem sfSectionBodyEnh_lastsec (p : PStr × PStr × PStr) (hp1 : LineOK p.1)
    (hp2 : LineOK p.2.1) (hp3 : LineOK p.2.2) :
    sfSectionBodyEnh (pyJoin crlf (secLinesEnh p) ++ crlf) =
      some (p.1, base64 (SHA1 (utf8Bytes ((pyJoin crlf (secLinesEnh p) ++ crlf) ++ crlf2)))) := by
  unfold sfSectionBodyEnh
  have hshape : pyJoin crlf (secLinesEnh p) ++ crlf =
      (ps "Name: " ++ p.1) ++ ((crlf ++ (ps "SHA1-Digest: " ++ p.2.1 ++
        (crlf ++ (ps "SHA-256-Digest: " ++ p.2.2)))) ++ crlf) := by
    simp [secLinesEnh, pyJoin, List.append_assoc]
  have hstrip : ¬ pyStrip (pyJoin crlf (secLinesEnh p) ++ crlf) = [] := by
    rw [hshape]
    exact pyStrip_nameLine_append_ne _ _
  rw [if_neg hstrip]
  have hsplit : splitCRLF (pyJoin crlf (secLinesEnh p) ++ crlf) = secLinesEnh p ++ [[]] := by
    rw [← pyJoin_append_blank crlf (secLinesEnh p) (by simp [secLinesEnh])]
    exact splitCRLF_join _ (by simp [secLinesEnh]) (by
      intro l hl
      rcases List.mem_append.mp hl with h | h
      · exact (secLinesEnh_good p hp1 hp2 hp3 l h).2
      · simp at h
        simp [h])
  rw [hsplit,
    show secLinesEnh p ++ [[]] = (ps "Name: " ++ p.1) ::
      [ps "SHA1-Digest: " ++ p.2.1, ps "SHA-256-Digest: " ++ p.2.2, []] from rfl,
    find?_nameLine]
  simp [drop6_nameLine]

theorem fileEntriesEnhanced_mem (entries : List ZEntry) (p : PStr × PStr × PStr)
    (hp : p ∈ fileEntriesEnhanced entries) :
    ∃ e ∈ entries, p = (e.name, base64 (SHA1 (readEntry entries e.name)),
      base64 (SHA256 (readEntry entries e.name))) := by
  unfold fileEntriesEnhanced at hp
  obtain ⟨e, he, rfl⟩ := List.mem_map.mp hp
  exact ⟨e, (List.mem_filter.mp he).1, rfl⟩

theorem fileEntriesEnhanced_snd_ok (entries : List ZEntry) (p : PStr × PStr × PStr)
    (hp : p ∈ fileEntriesEnhanced entries) : LineOK p.2.1 ∧ LineOK p.2.2 := by
  obtain ⟨e, _, rfl⟩ := fileEntriesEnhanced_mem entries p hp
  exact ⟨base64_lineOK _, base64_lineOK _⟩

theorem manifestEnhLines_groups (buildDate : PStr) (entries : List ZEntry) :
    manifestEnhLines buildDate entries = groupsToLines
      ([ps "Manifest-Version: 1.0", ps "Built-By: APK Editor Pro",
        ps "Created-By: APK Editor Enhanced System", ps "Build-Date: " ++ buildDate] ::
        (fileEntriesEnhanced entries).map secLinesEnh) := by
  unfold manifestEnhLines groupsToLines
  rw [List.flatMap_cons, List.flatMap_map]
  rfl

theorem sfSectionEntriesEnh_manifest (buildDate : PStr) (entries : List ZEntry)
    (hbd : LineOK buildDate)
    (h : ∀ p ∈ fileEntriesEnhanced entries, LineOK p.1) :
    sfSectionEntriesEnh (manifestEnhanced buildDate entries) =
      (fileEntriesEnhanced entries).dropLast.map
        (fun p => (p.1, base64 (SHA1 (utf8Bytes (pyJoin crlf (secLinesEnh p) ++ crlf2))))) ++
      ((fileEntriesEnhanced entries).getLast?.map
        (fun p => (p.1, base64 (SHA1 (utf8Bytes
          ((pyJoin crlf (secLinesEnh p) ++ crlf) ++ crlf2)))))).toList := by
  have hsnd := fileEntriesEnhanced_snd_ok entries
  unfold sfSectionEntriesEnh manifestEnhanced
  rw [manifestEnhLines_groups]
  have hhdr : ∀ l ∈ [ps "Manifest-Version: 1.0", ps "Built-By: APK Editor Pro",
      ps "Created-By: APK Editor Enhanced System", ps "Build-Date: " ++ buildDate],
      l ≠ [] ∧ ∀ c ∈ l, c ≠ CRc := by
    intro l hl
    simp only [List.mem_cons, List.not_mem_nil, or_false] at hl
    rcases hl with rfl | rfl | rfl | rfl
    · exact ⟨by decide, by decide⟩
    · exact ⟨by decide, by decide⟩
    · exact ⟨by decide, by decide⟩
    · exact ⟨by simp [ps], lineOK_crfree _ (lineOK_append _ _ (by decide) hbd)⟩
  rcases List.eq_nil_or_concat (fileEntriesEnhanced entries) with hfe | ⟨init, plast, hfe⟩
  · rw [hfe]
    rw [show ([ps "Manifest-Version: 1.0", ps "Built-By: APK Editor Pro",
        ps "Created-By: APK Editor Enhanced System", ps "Build-Date: " ++ buildDate] ::
        (List.map secLinesEnh [])) =
      [] ++ [[ps "Manifest-Version: 1.0", ps "Built-By: APK Editor Pro",
        ps "Created-By: APK Editor Enhanced System", ps "Build-Date: " ++ buildDate]] from by simp]
    rw [splitCRLF2_sections [] _ (by simp) ⟨by simp, hhdr⟩]
    simp
  · rw [List.concat_eq_append] at hfe
    have hmem : ∀ p ∈ init, p ∈ fileEntriesEnhanced entries := by
      intro p hp; rw [hfe]; exact List.mem_append.mpr (Or.inl hp)
    have hmemlast : plast ∈ fileEntriesEnhanced entries := by
      rw [hfe]; exact List.mem_append.mpr (Or.inr (by simp))
    rw [hfe]
    rw [show ([ps "Manifest-Version: 1.0", ps "Built-By: APK Editor Pro",
        ps "Created-By: APK Editor Enhanced System", ps "Build-Date: " ++ buildDate] ::
        (List.map secLinesEnh (init ++ [plast]))) =
      ([ps "Manifest-Version: 1.0", ps "Built-By: APK Editor Pro",
        ps "Created-By: APK Editor Enhanced System", ps "Build-Date: " ++ buildDate] ::
        List.map secLinesEnh init) ++ [secLinesEnh plast] from by simp]
    rw [splitCRLF2_sections _ _ (by
      intro g hg
      rcases List.mem_cons.mp hg with rfl | hg2
      · exact ⟨by simp, hhdr⟩
      · obtain ⟨p, hp, rfl⟩ := List.mem_map.mp hg2
        exact ⟨by simp [secLinesEnh],
          secLinesEnh_good p (h p (hmem p hp)) (hsnd p (hmem p hp)).1
            (hsnd p (hmem p hp)).2⟩)
      ⟨by simp [secLinesEnh], secLinesEnh_good plast (h plast hmemlast)
        (hsnd plast hmemlast).1 (hsnd plast hmemlast).2⟩]
    rw [List.map_cons]
    rw [show List.drop 1 ((pyJoin crlf [ps "Manifest-Version: 1.0",
        ps "Built-By: APK Editor Pro", ps "Created-By: APK Editor Enhanced System",
        ps "Build-Date: " ++ buildDate] ::
        List.map (pyJoin crlf) (List.map secLinesEnh init)) ++
        [pyJoin crlf (secLinesEnh plast) ++ crlf]) =
      List.map (pyJoin crlf) (List.map secLinesEnh init) ++
        [pyJoin crlf (secLinesEnh plast) ++ crlf] from by simp]
    rw [List.filterMap_append, List.map_map]
    rw [filterMap_map_of_some init (pyJoin crlf ∘ secLinesEnh) sfSectionBodyEnh
      (fun p => (p.1, base64 (SHA1 (utf8Bytes (pyJoin crlf (secLinesEnh p) ++ crlf2)))))
      (fun p hp => sfSectionBodyEnh_sec p (h p (hmem p hp)) (hsnd p (hmem p hp)).1
        (hsnd p (hmem p hp)).2)]
    rw [show List.filterMap sfSectionBodyEnh [pyJoin crlf (secLinesEnh plast) ++ crlf] =
      [(plast.1, base64 (SHA1 (utf8Bytes
        ((pyJoin crlf (secLinesEnh plast) ++ crlf) ++ crlf2))))] from by
      rw [List.filterMap_cons,
        sfSectionBodyEnh_lastsec plast (h plast hmemlast) (hsnd plast hmemlast).1
          (hsnd plast hmemlast).2]
      rfl]
    simp

theorem fileEntriesAdvanced_sorted (entries : List ZEntry) :
    List.Pairwise (fun a b : PStr × PStr => pyLeChars a.1 b.1 = true)
      (fileEntriesAdvanced entries) := by
  unfold fileEntriesAdvanced
  exact @List.sorted_mergeSort (PStr × PStr) (fun a b => pyLeChars a.1 b.1)
    (fun a b c hab hbc => pyLeChars_trans _ _ _ hab hbc)
    (fun a b => by rcases pyLeChars_total a.1 b.1 with h | h <;> simp [h]) _

theorem fileEntriesAdvanced_fst_ok (entries : List ZEntry)
    (hn : ∀ e ∈ entries, LineOK e.name) :
    ∀ p ∈ fileEntriesAdvanced entries, LineOK p.1 := by
  intro p hp
  obtain ⟨e, he, rfl⟩ := fileEntriesAdvanced_mem entries p hp
  exact hn e he

theorem fileEntriesEnhanced_fst_ok (entries : List ZEntry)
    (hn : ∀ e ∈ entries, LineOK e.name) :
    ∀ p ∈ fileEntriesEnhanced entries, LineOK p.1 := by
  intro p hp
  obtain ⟨e, he, rfl⟩ := fileEntriesEnhanced_mem entries p hp
  exact hn e he

theorem dropLast_append_crlf (l : PStr) : (l ++ crlf).dropLast.dropLast = l := by
  rw [show l ++ crlf = (l ++ [CRc]) ++ [LFc] from by simp [crlf]]
  rw [List.dropLast_concat, List.dropLast_concat]

theorem canonSecAdv_trunc (p : PStr × PStr) :
    (canonSecAdv p).dropLast.dropLast = pyJoin crlf (secLinesAdv p) ++ crlf := by
  unfold canonSecAdv
  exact dropLast_append_crlf _

theorem sfSectionEntriesAdv_sorted (entries : List ZEntry)
    (h : ∀ p ∈ fileEntriesAdvanced entries, LineOK p.1) :
    List.Pairwise (fun a b : PStr × PStr => pyLeChars a.1 b.1 = true)
      (sfSectionEntriesAdv (manifestAdvanced entries)) := by
  rw [sfSectionEntriesAdv_manifest entries h]
  have hfe := fileEntriesAdvanced_sorted entries
  rcases List.eq_nil_or_concat (fileEntriesAdvanced entries) with hfe0 | ⟨init, plast, hfe0⟩
  · rw [hfe0]
    simp
  · rw [List.concat_eq_append] at hfe0
    rw [hfe0] at hfe ⊢
    have h1 : (init ++ [plast]).dropLast = init := by simp
    have h2 : (init ++ [plast]).getLast? = some plast := by simp
    rw [h1, h2]
    obtain ⟨hpw, -, hcross⟩ := List.pairwise_append.mp hfe
    rw [List.pairwise_append]
    refine ⟨?_, by simp, ?_⟩
    · rw [List.pairwise_map]
      exact hpw
    · intro a ha b hb
      obtain ⟨p, hp, rfl⟩ := List.mem_map.mp ha
      simp at hb
      subst hb
      exact hcross p hp plast (by simp)

/-- **C2** (counterexample): the claim "for every per-entry section, the
SHA1-Digest recorded in CERT.SF equals the SHA-1 of that section's exact
serialized bytes including its CRLF line endings and its trailing blank-line
terminator, in both signing implementations" fails on the concrete archive
`{a.txt ↦ "x", b.txt ↦ "y"}`: the advanced implementation records for `a.txt`
(a non-final section) a digest computed **without** the blank-line terminator,
and the enhanced implementation records for `b.txt` (the final section) a
digest computed with one **extra** CRLF beyond the terminator.  Both recorded
values exist and differ from the claimed canonical-section digests. -/
theorem claim_C2_counterexample :
    (((sfSectionEntriesAdv (manifestAdvanced
        [⟨ps "a.txt", 8, none, [120]⟩, ⟨ps "b.txt", 8, none, [121]⟩])).find?
      (fun q => q.1 = ps "a.txt")).isSome = true) ∧
    ((sfSectionEntriesAdv (manifestAdvanced
        [⟨ps "a.txt", 8, none, [120]⟩, ⟨ps "b.txt", 8, none, [121]⟩])).find?
      (fun q => q.1 = ps "a.txt")).map Prod.snd ≠
      some (base64 (SHA1 (utf8Bytes (canonSecAdv (ps "a.txt", base64 (SHA1 [120])))))) ∧
    (((sfSectionEntriesEnh (manifestEnhanced (ps "2024-01-01T00:00:00")
        [⟨ps "a.txt", 8, none, [120]⟩, ⟨ps "b.txt", 8, none, [121]⟩])).find?
      (fun q => q.1 = ps "b.txt")).isSome = true) ∧
    ((sfSectionEntriesEnh (manifestEnhanced (ps "2024-01-01T00:00:00")
        [⟨ps "a.txt", 8, none, [120]⟩, ⟨ps "b.txt", 8, none, [121]⟩])).find?
      (fun q => q.1 = ps "b.txt")).map Prod.snd ≠
      some (base64 (SHA1 (utf8Bytes (canonSecEnh (ps "b.txt", base64 (SHA1 [121]),
        base64 (SHA256 [121])))))) := by
  have hfe : fileEntriesAdvanced
      [⟨ps "a.txt", 8, none, [120]⟩, ⟨ps "b.txt", 8, none, [121]⟩] =
      [(ps "a.txt", base64 (SHA1 [120])), (ps "b.txt", base64 (SHA1 [121]))] := by
    unfold fileEntriesAdvanced
    rw [List.mergeSort_of_sorted (by decide)]
    decide
  have hfeE : fileEntriesEnhanced
      [⟨ps "a.txt", 8, none, [120]⟩, ⟨ps "b.txt", 8, none, [121]⟩] =
      [(ps "a.txt", base64 (SHA1 [120]), base64 (SHA256 [120])),
       (ps "b.txt", base64 (SHA1 [121]), base64 (SHA256 [121]))] := by
    decide
  have hA := sfSectionEntriesAdv_manifest
    [⟨ps "a.txt", 8, none, [120]⟩, ⟨ps "b.txt", 8, none, [121]⟩]
    (fileEntriesAdvanced_fst_ok _ (by decide))
  have hE := sfSectionEntriesEnh_manifest (ps "2024-01-01T00:00:00")
    [⟨ps "a.txt", 8, none, [120]⟩, ⟨ps "b.txt", 8, none, [121]⟩]
    (by decide) (fileEntriesEnhanced_fst_ok _ (by decide))
  rw [hA, hE, hfe, hfeE]
  refine ⟨by decide, by decide, by decide, by decide⟩

/-- **C2** (amended): for every archive whose entry names are CR/LF-free, the
digests recorded in CERT.SF are characterized as follows.  In
`_create_cert_sf_advanced`, every non-final per-entry section is digested over
its serialized bytes **minus** the final CRLF of the blank-line terminator
(`(canonSecAdv p).dropLast.dropLast`), and only the final section is digested
over its exact serialized bytes including the terminator; the resulting
section-entry list is already name-sorted, so the subsequent sort leaves it
unchanged.  In `_create_enhanced_cert_sf`, every non-final section is digested
over its exact serialized bytes including the terminator (as the original
claim states), but the final section is digested with one extra CRLF appended
beyond the terminator. -/
theorem claim_C2_amended (entries : List ZEntry) (buildDate : PStr)
    (hn : ∀ e ∈ entries, LineOK e.name) (hbd : LineOK buildDate) :
    sfSectionEntriesAdv (manifestAdvanced entries) =
      (fileEntriesAdvanced entries).dropLast.map
        (fun p => (p.1, base64 (SHA1 (utf8Bytes ((canonSecAdv p).dropLast.dropLast))))) ++
      ((fileEntriesAdvanced entries).getLast?.map
        (fun p => (p.1, base64 (SHA1 (utf8Bytes (canonSecAdv p)))))).toList ∧
    (sfSectionEntriesAdv (manifestAdvanced entries)).mergeSort
      (fun a b => pyLeChars a.1 b.1) = sfSectionEntriesAdv (manifestAdvanced entries) ∧
    sfSectionEntriesEnh (manifestEnhanced buildDate entries) =
      (fileEntriesEnhanced entries).dropLast.map
        (fun p => (p.1, base64 (SHA1 (utf8Bytes (canonSecEnh p))))) ++
      ((fileEntriesEnhanced entries).getLast?.map
        (fun p => (p.1, base64 (SHA1 (utf8Bytes (canonSecEnh p ++ crlf)))))).toList := by
  have hfst := fileEntriesAdvanced_fst_ok entries hn
  have hfstE := fileEntriesEnhanced_fst_ok entries hn
  refine ⟨?_, List.mergeSort_of_sorted (sfSectionEntriesAdv_sorted entries hfst), ?_⟩
  · rw [sfSectionEntriesAdv_manifest entries hfst]
    simp only [canonSecAdv_trunc]
    simp only [canonSecAdv]
  · rw [sfSectionEntriesEnh_manifest buildDate entries hbd hfstE]
    simp only [canonSecEnh, show (crlf2 : PStr) = crlf ++ crlf from rfl, List.append_assoc]

/-- **C2** (witness): the amended characterization instantiated on the
two-entry archive `{a.txt ↦ "x", b.txt ↦ "y"}`. -/
theorem claim_C2_witness :
    sfSectionEntriesAdv (manifestAdvanced
        [⟨ps "a.txt", 8, none, [120]⟩, ⟨ps "b.txt", 8, none, [121]⟩]) =
      (fileEntriesAdvanced [⟨ps "a.txt", 8, none, [120]⟩,
        ⟨ps "b.txt", 8, none, [121]⟩]).dropLast.map
        (fun p => (p.1, base64 (SHA1 (utf8Bytes ((canonSecAdv p).dropLast.dropLast))))) ++
      ((fileEntriesAdvanced [⟨ps "a.txt", 8, none, [120]⟩,
        ⟨ps "b.txt", 8, none, [121]⟩]).getLast?.map
        (fun p => (p.1, base64 (SHA1 (utf8Bytes (canonSecAdv p)))))).toList ∧
    (sfSectionEntriesAdv (manifestAdvanced
        [⟨ps "a.txt", 8, none, [120]⟩, ⟨ps "b.txt", 8, none, [121]⟩])).mergeSort
      (fun a b => pyLeChars a.1 b.1) = sfSectionEntriesAdv (manifestAdvanced
        [⟨ps "a.txt", 8, none, [120]⟩, ⟨ps "b.txt", 8, none, [121]⟩]) ∧
    sfSectionEntriesEnh (manifestEnhanced (ps "2024-01-01T00:00:00")
        [⟨ps "a.txt", 8, none, [120]⟩, ⟨ps "b.txt", 8, none, [121]⟩]) =
      (fileEntriesEnhanced [⟨ps "a.txt", 8, none, [120]⟩,
        ⟨ps "b.txt", 8, none, [121]⟩]).dropLast.map
        (fun p => (p.1, base64 (SHA1 (utf8Bytes (canonSecEnh p))))) ++
      ((fileEntriesEnhanced [⟨ps "a.txt", 8, none, [120]⟩,
        ⟨ps "b.txt", 8, none, [121]⟩]).getLast?.map
        (fun p => (p.1, base64 (SHA1 (utf8Bytes (canonSecEnh p ++ crlf)))))).toList :=
  claim_C2_amended [⟨ps "a.txt", 8, none, [120]⟩, ⟨ps "b.txt", 8, none, [121]⟩]
    (ps "2024-01-01T00:00:00") (by decide) (by decide)

theorem filter_name_eq_of_nodup (entries : List ZEntry) (e : ZEntry)
    (hnd : (entries.map ZEntry.name).Nodup) (he : e ∈ entries) :
    entries.filter (fun x => x.name = e.name) = [e] := by
  induction entries with
  | nil => simp at he
  | cons a t ih =>
    rw [List.map_cons, List.nodup_cons] at hnd
    rcases List.mem_cons.mp he with h | het
    · subst h
      rw [List.filter_cons_of_pos (by simp)]
      rw [show List.filter (fun x => decide (x.name = e.name)) t = [] from by
        rw [List.filter_eq_nil_iff]
        intro x hx
        simp only [decide_eq_true_eq]
        intro hxa
        exact hnd.1 (hxa ▸ List.mem_map_of_mem ZEntry.name hx)]
    · have hne : ¬ (a.name = e.name) := by
        intro hh
        exact hnd.1 (hh ▸ List.mem_map_of_mem ZEntry.name het)
      rw [List.filter_cons_of_neg (by simpa using hne)]
      exact ih hnd.2 het

theorem readEntry_of_nodup (entries : List ZEntry) (e : ZEntry)
    (hnd : (entries.map ZEntry.name).Nodup) (he : e ∈ entries) :
    readEntry entries e.name = e.data := by
  unfold readEntry
  rw [filter_name_eq_of_nodup entries e hnd he]
  rfl

theorem mergeSort_eq_of_perm_nodup_fst (l1 l2 : List (PStr × PStr)) (hp : l1.Perm l2)
    (hnd : (l1.map Prod.fst).Nodup) :
    l1.mergeSort (fun a b => pyLeChars a.1 b.1) =
      l2.mergeSort (fun a b => pyLeChars a.1 b.1) := by
  have hperm : (l1.mergeSort (fun a b => pyLeChars a.1 b.1)).Perm
      (l2.mergeSort (fun a b => pyLeChars a.1 b.1)) :=
    (List.mergeSort_perm l1 _).trans (hp.trans (List.mergeSort_perm l2 _).symm)
  haveI hanti : IsAntisymm (PStr × PStr)
      (fun a b => pyLeChars a.1 b.1 = true ∧ a.1 ≠ b.1) := by
    constructor
    intro a b ha hb
    exact absurd (pyLeChars_antisymm a.1 b.1 ha.1 hb.1) ha.2
  have hsortstrict : ∀ (l : List (PStr × PStr)), (l.map Prod.fst).Nodup →
      List.Sorted (fun a b : PStr × PStr => pyLeChars a.1 b.1 = true ∧ a.1 ≠ b.1)
        (l.mergeSort (fun a b => pyLeChars a.1 b.1)) := by
    intro l hl
    have hle := @List.sorted_mergeSort (PStr × PStr) (fun a b => pyLeChars a.1 b.1)
      (fun a b c hab hbc => pyLeChars_trans _ _ _ hab hbc)
      (fun a b => by rcases pyLeChars_total a.1 b.1 with h | h <;> simp [h]) l
    have hndm : ((l.mergeSort (fun a b => pyLeChars a.1 b.1)).map Prod.fst).Nodup := by
      refine ((List.mergeSort_perm l _).map Prod.fst).symm.nodup ?_
      exact hl
    have hne := List.pairwise_map.mp hndm
    exact hle.and hne
  have hnd2 : (l2.map Prod.fst).Nodup := (hp.map Prod.fst).nodup hnd
  exact List.eq_of_perm_of_sorted hperm (hsortstrict l1 hnd) (hsortstrict l2 hnd2)

theorem fileEntriesAdvanced_perm (l1 l2 : List ZEntry) (hp : l1.Perm l2)
    (hnd : (l1.map ZEntry.name).Nodup) :
    fileEntriesAdvanced l1 = fileEntriesAdvanced l2 := by
  have hnd2 : (l2.map ZEntry.name).Nodup := (hp.map ZEntry.name).nodup hnd
  have hmap1 : List.map (fun e => (e.name, base64 (SHA1 (readEntry l1 e.name))))
      (l1.filter manifestAdvEntryFilter) =
      List.map (fun e => (e.name, base64 (SHA1 e.data))) (l1.filter manifestAdvEntryFilter) :=
    List.map_congr_left (fun e he => by
      rw [readEntry_of_nodup l1 e hnd (List.mem_of_mem_filter he)])
  have hmap2 : List.map (fun e => (e.name, base64 (SHA1 (readEntry l2 e.name))))
      (l2.filter manifestAdvEntryFilter) =
      List.map (fun e => (e.name, base64 (SHA1 e.data))) (l2.filter manifestAdvEntryFilter) :=
    List.map_congr_left (fun e he => by
      rw [readEntry_of_nodup l2 e hnd2 (List.mem_of_mem_filter he)])
  unfold fileEntriesAdvanced
  rw [hmap1, hmap2]
  apply mergeSort_eq_of_perm_nodup_fst
  · exact (hp.filter manifestAdvEntryFilter).map _
  · rw [List.map_map]
    exact ((List.filter_sublist l1).map (fun e => e.name)).nodup hnd

theorem manifestAdvanced_perm (l1 l2 : List ZEntry) (hp : l1.Perm l2)
    (hnd : (l1.map ZEntry.name).Nodup) :
    manifestAdvanced l1 = manifestAdvanced l2 := by
  unfold manifestAdvanced manifestAdvLines
  rw [fileEntriesAdvanced_perm l1 l2 hp hnd]

theorem filter_flatMap {α β : Type} (l : List α) (f : α → List β) (p : β → Bool) :
    (l.flatMap f).filter p = l.flatMap (fun a => (f a).filter p) := by
  induction l with
  | nil => rfl
  | cons a t ih => rw [List.flatMap_cons, List.flatMap_cons, List.filter_append, ih]

theorem flatMap_singleton_map {α β : Type} (l : List α) (g : α → β) :
    l.flatMap (fun a => [g a]) = l.map g := by
  induction l with
  | nil => rfl
  | cons a t ih => rw [List.flatMap_cons, List.map_cons, ih]; rfl

theorem notName_sha1Line (d : PStr) :
    pyStartsWith (ps "Name: ") (ps "SHA1-Digest: " ++ d) = false := rfl

theorem notName_sha256Line (d : PStr) :
    pyStartsWith (ps "Name: ") (ps "SHA-256-Digest: " ++ d) = false := rfl

theorem manifestAdvLines_ne_nil (entries : List ZEntry) : manifestAdvLines entries ≠ [] := by
  unfold manifestAdvLines
  simp

theorem manifestAdvLines_crfree (entries : List ZEntry)
    (hn : ∀ e ∈ entries, LineOK e.name) :
    ∀ l ∈ manifestAdvLines entries, ∀ c ∈ l, c ≠ CRc := by
  intro l hl
  unfold manifestAdvLines at hl
  rcases List.mem_append.mp hl with h | h
  · simp only [List.mem_cons, List.not_mem_nil, or_false] at h
    rcases h with rfl | rfl | rfl | rfl <;> decide
  · obtain ⟨p, hp, hmem⟩ := List.mem_flatMap.mp h
    have hp1 := fileEntriesAdvanced_fst_ok entries hn p hp
    have hp2 := fileEntriesAdvanced_snd_ok entries p hp
    simp only [List.mem_cons, List.not_mem_nil, or_false] at hmem
    rcases hmem with rfl | rfl | rfl
    · exact lineOK_crfree _ (lineOK_append _ _ (by decide) hp1)
    · exact lineOK_crfree _ (lineOK_append _ _ (by decide) hp2)
    · intro c hc; simp at hc

theorem namesOfManifest_adv (entries : List ZEntry)
    (hn : ∀ e ∈ entries, LineOK e.name) :
    namesOfManifest (manifestAdvanced entries) = (fileEntriesAdvanced entries).map Prod.fst := by
  unfold namesOfManifest manifestAdvanced
  rw [splitCRLF_join (manifestAdvLines entries) (manifestAdvLines_ne_nil entries)
    (manifestAdvLines_crfree entries hn)]
  unfold manifestAdvLines
  rw [List.filter_append, filter_flatMap]
  rw [show List.filter (fun l => pyStartsWith (ps "Name: ") l)
    [ps "Manifest-Version: 1.0", ps "Built-By: APK Editor",
     ps "Created-By: Android Gradle", []] = [] from by decide]
  rw [show (fun p : PStr × PStr =>
      List.filter (fun l => pyStartsWith (ps "Name: ") l)
        [ps "Name: " ++ p.1, ps "SHA1-Digest: " ++ p.2, []]) =
      (fun p : PStr × PStr => [ps "Name: " ++ p.1]) from by
    funext p
    rw [List.filter_cons_of_pos (pyStartsWith_self_append _ _),
      List.filter_cons_of_neg (by rw [notName_sha1Line]; exact Bool.false_ne_true),
      List.filter_cons_of_neg (by decide)]
    rfl]
  rw [flatMap_singleton_map, List.nil_append, List.map_map]
  exact List.map_congr_left (fun p _ => drop6_nameLine p.1)

/-- **C3** (counterexample): the claim that the `Name:` sections of the
generated MANIFEST.MF are sorted by entry name, independent of enumeration
order, and byte-identical across runs "in both manifest generators" fails for
`_create_enhanced_manifest_mf`: on the archive enumerated `[b.txt, a.txt]` it
emits the sections in enumeration order (`b.txt` before `a.txt`, unsorted),
swapping the enumeration order changes the output, and changing the build
timestamp (`datetime.now().isoformat()` baked into the `Build-Date:` header)
changes the bytes even for identical archives. -/
theorem claim_C3_counterexample :
    namesOfManifest (manifestEnhanced (ps "2024-01-01T00:00:00")
      [⟨ps "b.txt", 8, none, [121]⟩, ⟨ps "a.txt", 8, none, [120]⟩]) =
      [ps "b.txt", ps "a.txt"] ∧
    ¬ List.Pairwise (fun a b : PStr => pyLeChars a b = true)
      (namesOfManifest (manifestEnhanced (ps "2024-01-01T00:00:00")
        [⟨ps "b.txt", 8, none, [121]⟩, ⟨ps "a.txt", 8, none, [120]⟩])) ∧
    manifestEnhanced (ps "2024-01-01T00:00:00")
      [⟨ps "b.txt", 8, none, [121]⟩, ⟨ps "a.txt", 8, none, [120]⟩] ≠
    manifestEnhanced (ps "2024-01-01T00:00:00")
      [⟨ps "a.txt", 8, none, [120]⟩, ⟨ps "b.txt", 8, none, [121]⟩] ∧
    manifestEnhanced (ps "2024-01-01T00:00:00")
      [⟨ps "a.txt", 8, none, [120]⟩, ⟨ps "b.txt", 8, none, [121]⟩] ≠
    manifestEnhanced (ps "2024-01-01T00:00:01")
      [⟨ps "a.txt", 8, none, [120]⟩, ⟨ps "b.txt", 8, none, [121]⟩] := by
  refine ⟨by decide, by decide, by decide, by decide⟩

/-- **C3** (amended): the sortedness / enumeration-order-independence /
reproducibility claim holds for `_create_manifest_mf_advanced` (for archives
with distinct, CR/LF-free entry names): the `Name:` sections of its
MANIFEST.MF are exactly the sorted file-entry names, they are sorted by name,
and two runs over any two enumeration orders of the same entry set produce
byte-identical manifests.  (`_create_enhanced_manifest_mf` has none of these
properties — see the counterexample.) -/
theorem claim_C3_amended (l1 l2 : List ZEntry) (hp : l1.Perm l2)
    (hnd : (l1.map ZEntry.name).Nodup) (hn : ∀ e ∈ l1, LineOK e.name) :
    namesOfManifest (manifestAdvanced l1) = (fileEntriesAdvanced l1).map Prod.fst ∧
    List.Pairwise (fun a b : PStr => pyLeChars a b = true)
      (namesOfManifest (manifestAdvanced l1)) ∧
    manifestAdvanced l1 = manifestAdvanced l2 := by
  refine ⟨namesOfManifest_adv l1 hn, ?_, manifestAdvanced_perm l1 l2 hp hnd⟩
  rw [namesOfManifest_adv l1 hn]
  exact List.pairwise_map.mpr (fileEntriesAdvanced_sorted l1)

/-- **C3** (witness): the amended claim instantiated on the archive
`{a.txt ↦ "x", b.txt ↦ "y"}` and its two enumeration orders. -/
theorem claim_C3_witness :
    namesOfManifest (manifestAdvanced
      [⟨ps "a.txt", 8, none, [120]⟩, ⟨ps "b.txt", 8, none, [121]⟩]) =
      (fileEntriesAdvanced
        [⟨ps "a.txt", 8, none, [120]⟩, ⟨ps "b.txt", 8, none, [121]⟩]).map Prod.fst ∧
    List.Pairwise (fun a b : PStr => pyLeChars a b = true)
      (namesOfManifest (manifestAdvanced
        [⟨ps "a.txt", 8, none, [120]⟩, ⟨ps "b.txt", 8, none, [121]⟩])) ∧
    manifestAdvanced [⟨ps "a.txt", 8, none, [120]⟩, ⟨ps "b.txt", 8, none, [121]⟩] =
      manifestAdvanced [⟨ps "b.txt", 8, none, [121]⟩, ⟨ps "a.txt", 8, none, [120]⟩] :=
  claim_C3_amended
    [⟨ps "a.txt", 8, none, [120]⟩, ⟨ps "b.txt", 8, none, [121]⟩]
    [⟨ps "b.txt", 8, none, [121]⟩, ⟨ps "a.txt", 8, none, [120]⟩]
    (by decide) (by decide) (by decide)

theorem find?_copied_append (entries rest : List ZEntry) (key : PStr)
    (hkey : pyStartsWith (ps "META-INF/") key = true) :
    (copiedEntries entries ++ rest).find? (fun e => e.name = key) =
      rest.find? (fun e => e.name = key) := by
  rw [List.find?_append]
  rw [show (copiedEntries entries).find? (fun e => e.name = key) = none from by
    rw [List.find?_eq_none]
    intro e he
    unfold copiedEntries at he
    obtain ⟨e0, he0, rfl⟩ := List.mem_map.mp he
    have hf := (List.mem_filter.mp he0).2
    simp only [Bool.not_eq_eq_eq_not, Bool.not_true] at hf
    simp only [decide_eq_true_eq]
    intro hname
    rw [show ({ e0 with data := readEntry entries e0.name } : ZEntry).name = e0.name from rfl]
      at hname
    rw [hname, hkey] at hf
    exact Bool.true_eq_false ▸ hf]
  rfl

theorem certSFAdvanced_prefix (m : PStr) :
    certSFAdvanced m =
      ps "Signature-Version: 1.0" ++ crlf ++ ps "SHA1-Digest-Manifest: " ++
        base64 (SHA1 (utf8Bytes m)) ++ crlf ++
        pyJoin crlf ([ps "SHA1-Digest-Manifest-Main-Attributes: " ++
          base64 (SHA1 (utf8Bytes ((splitCRLF2 m).headD [] ++ crlf))),
          ps "Created-By: Android Gradle", []] ++
          ((sfSectionEntriesAdv m).mergeSort (fun a b => pyLeChars a.1 b.1)).flatMap
            (fun p => [ps "Name: " ++ p.1, ps "SHA1-Digest: " ++ p.2, []])) := by
  unfold certSFAdvanced certSFAdvLines
  simp only [List.cons_append]
  rw [pyJoin_cons, pyJoin_cons]
  simp [List.append_assoc]

theorem certSFEnhanced_prefix (sigDate m : PStr) :
    certSFEnhanced sigDate m =
      ps "Signature-Version: 1.0" ++ crlf ++ ps "SHA1-Digest-Manifest: " ++
        base64 (SHA1 (utf8Bytes m)) ++ crlf ++
        pyJoin crlf ([ps "SHA1-Digest-Manifest-Main-Attributes: " ++
          base64 (SHA1 (utf8Bytes ((splitCRLF2 m).headD [] ++ crlf))),
          ps "Created-By: APK Editor Enhanced",
          ps "Signature-Date: " ++ sigDate, []] ++
          (sfSectionEntriesEnh m).flatMap
            (fun p => [ps "Name: " ++ p.1, ps "SHA1-Digest: " ++ p.2, []])) := by
  unfold certSFEnhanced certSFEnhLines
  simp only [List.cons_append]
  rw [pyJoin_cons, pyJoin_cons]
  simp [List.append_assoc]

theorem find?_name_cons_pos (k : PStr) (a : ZEntry) (rest : List ZEntry) (h : a.name = k) :
    (a :: rest).find? (fun e => e.name = k) = some a :=
  List.find?_cons_of_pos _ (by simp [h])

theorem find?_name_cons_neg (k : PStr) (a : ZEntry) (rest : List ZEntry) (h : ¬ a.name = k) :
    (a :: rest).find? (fun e => e.name = k) = rest.find? (fun e => e.name = k) :=
  List.find?_cons_of_neg _ (by simp [h])

/-- **C1** (confirmed): for every input archive, in both signing
implementations the output archive's CERT.SF entry records, in its
`SHA1-Digest-Manifest` field (the second CRLF-terminated line), exactly the
base64-encoded SHA-1 digest of the complete MANIFEST.MF byte sequence written
to the same output archive; the digest value itself contains no CR or LF, so
it is the entire field value. -/
theorem claim_C1 (entries : List ZEntry) (ts : Nat) (buildDate sigDate : PStr) :
    ∃ r1 r2,
      findEntryData (createSignedApk ts entries) (ps "META-INF/MANIFEST.MF") =
        some (utf8Bytes (manifestAdvanced entries)) ∧
      findEntryData (createSignedApk ts entries) (ps "META-INF/CERT.SF") =
        some (utf8Bytes (certSFAdvanced (manifestAdvanced entries))) ∧
      certSFAdvanced (manifestAdvanced entries) =
        ps "Signature-Version: 1.0" ++ crlf ++ ps "SHA1-Digest-Manifest: " ++
          base64 (SHA1 (utf8Bytes (manifestAdvanced entries))) ++ crlf ++ r1 ∧
      LineOK (base64 (SHA1 (utf8Bytes (manifestAdvanced entries)))) ∧
      findEntryData (createRealisticSignedApk ts buildDate sigDate entries)
        (ps "META-INF/MANIFEST.MF") =
        some (utf8Bytes (manifestEnhanced buildDate entries)) ∧
      findEntryData (createRealisticSignedApk ts buildDate sigDate entries)
        (ps "META-INF/CERT.SF") =
        some (utf8Bytes (certSFEnhanced sigDate (manifestEnhanced buildDate entries))) ∧
      certSFEnhanced sigDate (manifestEnhanced buildDate entries) =
        ps "Signature-Version: 1.0" ++ crlf ++ ps "SHA1-Digest-Manifest: " ++
          base64 (SHA1 (utf8Bytes (manifestEnhanced buildDate entries))) ++ crlf ++ r2 ∧
      LineOK (base64 (SHA1 (utf8Bytes (manifestEnhanced buildDate entries)))) := by
  refine ⟨_, _, ?_, ?_, certSFAdvanced_prefix _, base64_lineOK _, ?_, ?_,
    certSFEnhanced_prefix _ _, base64_lineOK _⟩
  · unfold findEntryData createSignedApk
    rw [find?_copied_append _ _ _ (by decide),
      find?_name_cons_pos (ps "META-INF/MANIFEST.MF")
        (newZEntry (ps "META-INF/MANIFEST.MF") (utf8Bytes (manifestAdvanced entries))) _ rfl]
    rfl
  · unfold findEntryData createSignedApk
    rw [find?_copied_append _ _ _ (by decide),
      find?_name_cons_neg (ps "META-INF/CERT.SF")
        (newZEntry (ps "META-INF/MANIFEST.MF") (utf8Bytes (manifestAdvanced entries))) _
        (fun h => absurd (show ps "META-INF/MANIFEST.MF" = ps "META-INF/CERT.SF" from h)
          (by decide)),
      find?_name_cons_pos (ps "META-INF/CERT.SF")
        (newZEntry (ps "META-INF/CERT.SF")
          (utf8Bytes (certSFAdvanced (manifestAdvanced entries)))) _ rfl]
    rfl
  · unfold findEntryData createRealisticSignedApk
    rw [find?_copied_append _ _ _ (by decide),
      find?_name_cons_pos (ps "META-INF/MANIFEST.MF")
        (newZEntry (ps "META-INF/MANIFEST.MF")
          (utf8Bytes (manifestEnhanced buildDate entries))) _ rfl]
    rfl
  · unfold findEntryData createRealisticSignedApk
    rw [find?_copied_append _ _ _ (by decide),
      find?_name_cons_neg (ps "META-INF/CERT.SF")
        (newZEntry (ps "META-INF/MANIFEST.MF")
          (utf8Bytes (manifestEnhanced buildDate entries))) _
        (fun h => absurd (show ps "META-INF/MANIFEST.MF" = ps "META-INF/CERT.SF" from h)
          (by decide)),
      find?_name_cons_pos (ps "META-INF/CERT.SF")
        (newZEntry (ps "META-INF/CERT.SF")
          (utf8Bytes (certSFEnhanced sigDate (manifestEnhanced buildDate entries)))) _ rfl]
    rfl

theorem leBytes_length (w n : Nat) : (leBytes w n).length = w := by
  induction w generalizing n with
  | zero => rfl
  | succ k ih => simp [leBytes, ih]

theorem length_flatMap_const {α : Type} (l : List α) (f : α → List Nat) (k : Nat)
    (h : ∀ a, (f a).length = k) : (l.flatMap f).length = k * l.length := by
  induction l with
  | nil => simp
  | cons a t ih =>
    rw [List.flatMap_cons, List.length_append, h, ih, List.length_cons]
    ring

theorem dexHeaderBytes_length (fs : Nat) : (dexHeaderBytes fs).length = 112 := by
  unfold dexHeaderBytes
  simp [SHA1_length, leBytes_length]

theorem dexWithIds_eq (fs : Nat) : dexWithIds fs =
    dexHeaderBytes fs ++
    ((List.range 100).flatMap (fun i => leBytes 4 (1672 + i * 20)) ++
     (List.range 50).flatMap (fun i => leBytes 4 (i % 100))) := by
  unfold dexWithIds
  rw [dexHeaderBytes_length]
  simp

theorem dexWithIds_length (fs : Nat) : (dexWithIds fs).length = 712 := by
  rw [dexWithIds_eq, List.length_append, List.length_append, dexHeaderBytes_length,
    length_flatMap_const _ _ 4 (fun a => leBytes_length 4 _),
    length_flatMap_const _ _ 4 (fun a => leBytes_length 4 _)]
  simp

theorem dexChunk_length (n : Nat) : (dexChunk n).length = n := by
  unfold dexChunk
  rw [List.length_append, List.length_replicate,
    length_flatMap_const (List.range (n / 4))
      (fun g => [dexOpcode (4 * g), g % 256, g % 256, g / 256]) 4 (fun a => rfl),
    List.length_range]
  omega

theorem flatten_replicate_length (k : Nat) (l : List Nat) :
    ((List.replicate k l).flatten).length = k * l.length := by
  induction k with
  | zero => simp
  | succ kk ih =>
    rw [List.replicate_succ, List.flatten_cons, List.length_append, ih, Nat.succ_mul]
    ring

theorem dexFill_length (n : Nat) : (dexFill n).length = n := by
  unfold dexFill
  rw [List.length_append, flatten_replicate_length, dexChunk_length, dexChunk_length]
  omega

theorem le712_dexFileSize (t : Nat) : 712 ≤ dexFileSize t := by
  unfold dexFileSize
  have := Nat.le_max_right (t / 8) 100000
  omega

theorem createRealisticDex_split (t : Nat) :
    createRealisticDex t = dexWithIds (dexFileSize t) ++ dexFill (dexFileSize t - 712) := by
  show (dexWithIds (dexFileSize t) ++
    dexFill (dexFileSize t - (dexWithIds (dexFileSize t)).length)).take (dexFileSize t) = _
  rw [dexWithIds_length]
  apply List.take_of_length_le
  rw [List.length_append, dexWithIds_length, dexFill_length]
  have := le712_dexFileSize t
  omega

theorem createRealisticDex_length (t : Nat) :
    (createRealisticDex t).length = dexFileSize t := by
  rw [createRealisticDex_split, List.length_append, dexWithIds_length, dexFill_length]
  have := le712_dexFileSize t
  omega

theorem getD_append_len_add (pre l : List Nat) (k : Nat) :
    (pre ++ l).getD (pre.length + k) 0 = l.getD k 0 := by
  rw [List.getD_append_right _ _ _ _ (Nat.le_add_right _ _), Nat.add_sub_cancel_left]

theorem readLE4_pre (pre : List Nat) (n : Nat) (rest : List Nat) (off : Nat)
    (hoff : off = pre.length) (hn : n < 4294967296) :
    readLE4 (pre ++ (leBytes 4 n ++ rest)) off = n := by
  subst hoff
  unfold readLE4
  have g0 : (pre ++ (leBytes 4 n ++ rest)).getD pre.length 0 =
      (leBytes 4 n ++ rest).getD 0 0 := by
    have h := getD_append_len_add pre (leBytes 4 n ++ rest) 0
    simpa using h
  have g1 := getD_append_len_add pre (leBytes 4 n ++ rest) 1
  have g2 := getD_append_len_add pre (leBytes 4 n ++ rest) 2
  have g3 := getD_append_len_add pre (leBytes 4 n ++ rest) 3
  rw [g0, g1, g2, g3]
  simp only [leBytes, List.cons_append, List.nil_append, List.getD_cons_zero,
    List.getD_cons_succ]
  omega

theorem dex_cksum_field (t : Nat) : readLE4 (createRealisticDex t) 8 = 3735928559 := by
  rw [createRealisticDex_split, dexWithIds_eq]
  unfold dexHeaderBytes
  simp only [List.append_assoc]
  exact readLE4_pre [0x64, 0x65, 0x78, 0x0A, 0x30, 0x33, 0x35, 0x00] 3735928559 _ 8 rfl
    (by norm_num)

theorem readLE4_deep (p1 p2 p3 : List Nat) (n : Nat) (rest : List Nat)
    (hn : n < 4294967296) (off : Nat)
    (hoff : off = p1.length + p2.length + p3.length) :
    readLE4 (p1 ++ (p2 ++ (p3 ++ (leBytes 4 n ++ rest)))) off = n := by
  rw [show p1 ++ (p2 ++ (p3 ++ (leBytes 4 n ++ rest))) =
      ((p1 ++ p2) ++ p3) ++ (leBytes 4 n ++ rest) from by simp [List.append_assoc]]
  exact readLE4_pre _ n rest off (by rw [hoff, List.length_append, List.length_append]) hn

theorem dex_filesize_field (t : Nat) (h : dexFileSize t < 4294967296) :
    readLE4 (createRealisticDex t) 32 = dexFileSize t := by
  rw [createRealisticDex_split, dexWithIds_eq]
  unfold dexHeaderBytes
  simp only [List.append_assoc]
  exact readLE4_deep [0x64, 0x65, 0x78, 0x0A, 0x30, 0x33, 0x35, 0x00]
    (leBytes 4 3735928559) (SHA1 (utf8Bytes (natStr (dexFileSize t))))
    (dexFileSize t) _ h 32 (by rw [leBytes_length, SHA1_length]; rfl)

theorem adler_fst (m : List Nat) (a b : Nat) (ha : a < 65521) :
    (m.foldl adlerStep (a, b)).1 = (a + m.sum) % 65521 := by
  induction m generalizing a b with
  | nil => simp [Nat.mod_eq_of_lt ha]
  | cons c t ih =>
    simp only [List.foldl_cons, adlerStep, List.sum_cons]
    rw [ih _ _ (Nat.mod_lt _ (by norm_num)), Nat.mod_add_mod, Nat.add_assoc]

theorem adler32_mod (m : List Nat) : adler32 m % 65536 = (1 + m.sum) % 65521 := by
  show ((m.foldl adlerStep (1, 0)).2 * 65536 + (m.foldl adlerStep (1, 0)).1) % 65536 = _
  rw [Nat.mul_comm, Nat.mul_add_mod, adler_fst m 1 0 (by norm_num)]
  exact Nat.mod_eq_of_lt (lt_trans (Nat.mod_lt _ (by norm_num)) (by norm_num))

theorem flatten_replicate_sum (k : Nat) (l : List Nat) :
    ((List.replicate k l).flatten).sum = k * l.sum := by
  induction k with
  | zero => simp
  | succ kk ih =>
    rw [List.replicate_succ, List.flatten_cons, List.sum_append, ih, Nat.succ_mul]
    ring

theorem dexFill_sum_99288 :
    (dexFill 99288).sum = 24 * (dexChunk 4096).sum + (dexChunk 984).sum := by
  unfold dexFill
  rw [List.sum_append, flatten_replicate_sum]

theorem dex0_tail : (createRealisticDex 0).drop 12 =
    (dexWithIds 100000).drop 12 ++ dexFill 99288 := by
  rw [createRealisticDex_split 0, show dexFileSize 0 = 100000 from by decide]
  rw [List.drop_append_of_le_length (by rw [dexWithIds_length]; omega)]

theorem sum_flatMap_range_add (f : Nat → List Nat) (m n : Nat) :
    ((List.range (m + n)).flatMap f).sum =
    ((List.range m).flatMap f).sum +
      ((List.range n).flatMap (fun i => f (m + i))).sum := by
  rw [List.range_add, List.flatMap_append, List.sum_append]
  congr 1
  simp [List.flatMap_map]

theorem chunk4096_sum : (dexChunk 4096).sum = 321062 := by
  unfold dexChunk
  rw [List.sum_append,
    show (4096 : Nat) / 4 = 256 + (256 + (256 + 256)) from by norm_num,
    sum_flatMap_range_add, sum_flatMap_range_add, sum_flatMap_range_add]
  decide

/-- **C9** (counterexample): the DEX stub's checksum field (little-endian word
at byte offset 8) does not hold the Adler-32 of the bytes following it: for
target size hint 0 the field holds the placeholder `0xDEADBEEF = 3735928559`,
while the Adler-32 of the remaining 99 988 bytes is a different value (their
low 16 bits already disagree: `0xBEEF = 48879` vs `2168`). -/
theorem claim_C9_counterexample :
    readLE4 (createRealisticDex 0) 8 ≠ adler32 ((createRealisticDex 0).drop 12) := by
  intro heq
  have h8 := dex_cksum_field 0
  have hmod := adler32_mod ((createRealisticDex 0).drop 12)
  have hsum : ((createRealisticDex 0).drop 12).sum = 7799166 := by
    rw [dex0_tail, List.sum_append, dexFill_sum_99288,
      show ((dexWithIds 100000).drop 12).sum = 19425 from by decide,
      chunk4096_sum,
      show (dexChunk 984).sum = 74253 from by decide]
  rw [hsum, ← heq, h8] at hmod
  norm_num at hmod

/-- **C9** (amended): for every target size hint (whose resulting `file_size`
fits the 4-byte field), the buffer returned by `_create_realistic_dex` has
length equal to the `file_size` field stored little-endian at byte offset 32;
but the checksum field at byte offset 8 holds the fixed placeholder
`0xDEADBEEF` rather than the Adler-32 of the rest of the buffer. -/
theorem claim_C9_amended (t : Nat) (h : dexFileSize t < 4294967296) :
    (createRealisticDex t).length = readLE4 (createRealisticDex t) 32 ∧
    readLE4 (createRealisticDex t) 8 = 3735928559 := by
  refine ⟨?_, dex_cksum_field t⟩
  rw [createRealisticDex_length, dex_filesize_field t h]

/-- **C9** (witness): the amended claim at target size hint 0. -/
theorem claim_C9_witness :
    dexFileSize 0 < 4294967296 ∧
    ((createRealisticDex 0).length = readLE4 (createRealisticDex 0) 32 ∧
      readLE4 (createRealisticDex 0) 8 = 3735928559) :=
  ⟨by decide, claim_C9_amended 0 (by decide)⟩

theorem copiedEntries_of_nodup (entries : List ZEntry)
    (hnd : (entries.map ZEntry.name).Nodup) :
    copiedEntries entries =
      entries.filter (fun e => !pyStartsWith (ps "META-INF/") e.name) := by
  unfold copiedEntries
  have h : ∀ e ∈ entries.filter (fun e => !pyStartsWith (ps "META-INF/") e.name),
      ({ e with data := readEntry entries e.name } : ZEntry) = e := by
    intro e he
    rw [readEntry_of_nodup entries e hnd (List.mem_of_mem_filter he)]
  rw [List.map_congr_left h]
  simp

/-- **C4**: for an archive with distinct entry names (the invariant CPython's
`NameToInfo` lookup presupposes), both signing implementations emit exactly the
source's non-`META-INF/` entries — byte-identical, since `read(name)` resolves
each copied name back to its own content — followed by exactly the three fresh
`META-INF/MANIFEST.MF`, `META-INF/CERT.SF`, `META-INF/CERT.RSA` entries; in
particular every source `META-INF/` entry is dropped. -/
theorem claim_C4 (ts : Nat) (buildDate sigDate : PStr) (entries : List ZEntry)
    (hnd : (entries.map ZEntry.name).Nodup) :
    createSignedApk ts entries =
      entries.filter (fun e => !pyStartsWith (ps "META-INF/") e.name) ++
      [newZEntry (ps "META-INF/MANIFEST.MF") (utf8Bytes (manifestAdvanced entries)),
       newZEntry (ps "META-INF/CERT.SF")
         (utf8Bytes (certSFAdvanced (manifestAdvanced entries))),
       newZEntry (ps "META-INF/CERT.RSA") (certRSAAdvanced ts)] ∧
    createRealisticSignedApk ts buildDate sigDate entries =
      entries.filter (fun e => !pyStartsWith (ps "META-INF/") e.name) ++
      [newZEntry (ps "META-INF/MANIFEST.MF")
         (utf8Bytes (manifestEnhanced buildDate entries)),
       newZEntry (ps "META-INF/CERT.SF")
         (utf8Bytes (certSFEnhanced sigDate (manifestEnhanced buildDate entries))),
       newZEntry (ps "META-INF/CERT.RSA") (certRSAEnhanced ts)] := by
  constructor
  · unfold createSignedApk
    rw [copiedEntries_of_nodup entries hnd]
  · unfold createRealisticSignedApk
    rw [copiedEntries_of_nodup entries hnd]

/-- **C4** (witness): the spec's three-entry scenario (`a.txt`, `b.txt`,
`META-INF/OLD.SF`) has distinct names and the characterization applies. -/
theorem claim_C4_witness :
    ((([⟨ps "a.txt", 8, some 6, [120]⟩, ⟨ps "b.txt", 8, some 6, [121]⟩,
        ⟨ps "META-INF/OLD.SF", 8, some 6, [122]⟩] : List ZEntry).map ZEntry.name).Nodup) ∧
    (createSignedApk 0 [⟨ps "a.txt", 8, some 6, [120]⟩, ⟨ps "b.txt", 8, some 6, [121]⟩,
        ⟨ps "META-INF/OLD.SF", 8, some 6, [122]⟩] =
      ([⟨ps "a.txt", 8, some 6, [120]⟩, ⟨ps "b.txt", 8, some 6, [121]⟩,
        ⟨ps "META-INF/OLD.SF", 8, some 6, [122]⟩] : List ZEntry).filter
          (fun e => !pyStartsWith (ps "META-INF/") e.name) ++
        [newZEntry (ps "META-INF/MANIFEST.MF") (utf8Bytes (manifestAdvanced
            [⟨ps "a.txt", 8, some 6, [120]⟩, ⟨ps "b.txt", 8, some 6, [121]⟩,
             ⟨ps "META-INF/OLD.SF", 8, some 6, [122]⟩])),
         newZEntry (ps "META-INF/CERT.SF") (utf8Bytes (certSFAdvanced (manifestAdvanced
            [⟨ps "a.txt", 8, some 6, [120]⟩, ⟨ps "b.txt", 8, some 6, [121]⟩,
             ⟨ps "META-INF/OLD.SF", 8, some 6, [122]⟩]))),
         newZEntry (ps "META-INF/CERT.RSA") (certRSAAdvanced 0)] ∧
      createRealisticSignedApk 0 [] [] [⟨ps "a.txt", 8, some 6, [120]⟩,
          ⟨ps "b.txt", 8, some 6, [121]⟩, ⟨ps "META-INF/OLD.SF", 8, some 6, [122]⟩] =
        ([⟨ps "a.txt", 8, some 6, [120]⟩, ⟨ps "b.txt", 8, some 6, [121]⟩,
          ⟨ps "META-INF/OLD.SF", 8, some 6, [122]⟩] : List ZEntry).filter
            (fun e => !pyStartsWith (ps "META-INF/") e.name) ++
          [newZEntry (ps "META-INF/MANIFEST.MF") (utf8Bytes (manifestEnhanced []
              [⟨ps "a.txt", 8, some 6, [120]⟩, ⟨ps "b.txt", 8, some 6, [121]⟩,
               ⟨ps "META-INF/OLD.SF", 8, some 6, [122]⟩])),
           newZEntry (ps "META-INF/CERT.SF") (utf8Bytes (certSFEnhanced [] (manifestEnhanced []
              [⟨ps "a.txt", 8, some 6, [120]⟩, ⟨ps "b.txt", 8, some 6, [121]⟩,
               ⟨ps "META-INF/OLD.SF", 8, some 6, [122]⟩]))),
           newZEntry (ps "META-INF/CERT.RSA") (certRSAEnhanced 0)]) :=
  ⟨by decide, claim_C4 0 [] [] [⟨ps "a.txt", 8, some 6, [120]⟩,
    ⟨ps "b.txt", 8, some 6, [121]⟩, ⟨ps "META-INF/OLD.SF", 8, some 6, [122]⟩] (by decide)⟩

/-- **C5** (counterexample): the copy loops pass the source `ZipInfo` object to
`writestr`, so a copied entry keeps its *source* compression method and level;
an archive whose single entry is stored (method 0, no level) yields an output
whose entries' `(method, level)` metadata is `(0, none)` for the copied entry
versus `(8, some 6)` for the three fresh ones — not one uniform destination
configuration, in either implementation. -/
theorem claim_C5_counterexample :
    (createSignedApk 0 [⟨ps "a.txt", 0, none, [120]⟩]).map
        (fun e => (e.ctype, e.clevel)) =
      [(0, none), (8, some 6), (8, some 6), (8, some 6)] ∧
    (createRealisticSignedApk 0 [] [] [⟨ps "a.txt", 0, none, [120]⟩]).map
        (fun e => (e.ctype, e.clevel)) =
      [(0, none), (8, some 6), (8, some 6), (8, some 6)] ∧
    ((0 : Nat), (none : Option Nat)) ≠ (ZIP_DEFLATED, some 6) := by
  refine ⟨rfl, rfl, by decide⟩

/-- **C5** (amended): in both signing implementations the `(method, level)`
metadata of the output is the source metadata of each copied (non-`META-INF/`)
entry — reused from the source `ZipInfo` — followed by the destination
configuration `(ZIP_DEFLATED, 6)` for exactly the three fresh entries. -/
theorem claim_C5_amended (ts : Nat) (buildDate sigDate : PStr) (entries : List ZEntry) :
    (createSignedApk ts entries).map (fun e => (e.ctype, e.clevel)) =
      (entries.filter (fun e => !pyStartsWith (ps "META-INF/") e.name)).map
        (fun e => (e.ctype, e.clevel)) ++
      [(ZIP_DEFLATED, some 6), (ZIP_DEFLATED, some 6), (ZIP_DEFLATED, some 6)] ∧
    (createRealisticSignedApk ts buildDate sigDate entries).map
        (fun e => (e.ctype, e.clevel)) =
      (entries.filter (fun e => !pyStartsWith (ps "META-INF/") e.name)).map
        (fun e => (e.ctype, e.clevel)) ++
      [(ZIP_DEFLATED, some 6), (ZIP_DEFLATED, some 6), (ZIP_DEFLATED, some 6)] := by
  constructor
  · unfold createSignedApk copiedEntries
    rw [List.map_append, List.map_map]
    rfl
  · unfold createRealisticSignedApk copiedEntries
    rw [List.map_append, List.map_map]
    rfl

/-- **C6** (counterexample): when compilation and structure validation succeed
but signing fails, `compile_apk` does *not* return `None`: it logs a warning
and returns the unsigned `compiled.apk` path. -/
theorem claim_C6_counterexample :
    compileApk (ps "p") (ps "id") true true false false =
      some ((ps "p" ++ ps "/" ++ ps "id") ++ ps "/compiled.apk") ∧
    compileApk (ps "p") (ps "id") true true false false ≠ none := by
  exact ⟨rfl, by decide⟩

/-- **C6** (amended): `compile_apk` returns `None` exactly when the apktool
compile step or the structure validation fails; when both succeed it always
returns a path — `signed.apk` if signing and signed-APK validation both
succeed, otherwise the unsigned `compiled.apk` (so a signing failure alone
does not make the operation return no path). -/
theorem claim_C6_amended (pf id : PStr) (c st sg sv : Bool) :
    compileApk pf id c st sg sv =
      (if c && st then
        some (if sg && sv then (pf ++ ps "/" ++ id) ++ ps "/signed.apk"
              else (pf ++ ps "/" ++ id) ++ ps "/compiled.apk")
       else none) ∧
    (compileApk pf id c st sg sv = none ↔ (c = false ∨ st = false)) := by
  cases c <;> cases st <;> cases sg <;> cases sv <;> simp [compileApk]

/-- **C7** (counterexample): `_simulate_decompile` catches the `BadZipFile`
raised on a non-ZIP input, synthesizes sample resources and still returns
`True`; `decompile_apk` therefore reports success and leaves a fully-scaffolded
project directory (with sample content) rather than failing with a corrupt-
archive error. -/
theorem claim_C7_counterexample :
    decompileApk none false false =
      (true, some ⟨some ⟨true, false, true, true, true⟩, true, true⟩) ∧
    (decompileApk none false false).1 ≠ false := by
  exact ⟨rfl, by decide⟩

/-- **C7** (amended): on an unreadable (non-ZIP) input, `decompile_apk`
*always* returns success: with a working apktool the real decompiler output is
kept, and otherwise the simulation scaffolds the project directory with sample
resources and a sample manifest — no failure is reported in any case. -/
theorem claim_C7_amended (toolchain : Option Bool) (manifestPresent : Bool) :
    decompileApk toolchain false manifestPresent =
      (true, some ⟨(if toolchain = some true then none
          else some ⟨true, false, true, true, true⟩), true, true⟩) := by
  cases toolchain with
  | none => rfl
  | some b => cases b <;> rfl

/-- **C8**: `_sign_apk_advanced` tries jarsigner, then apksigner, then the
manual fallback, in that fixed order; it stops at the first success, its
success flag is the disjunction of the three outcomes (so one method's failure
never fails the operation while a later one succeeds), it fails exactly when
all three methods fail, and the attempted-method trace is always a prefix of
the fixed priority list. -/
theorem claim_C8 (j a m : Bool) :
    (signApkAdvanced j a m).1 = (j || a || m) ∧
    ((signApkAdvanced j a m).1 = false ↔ (j = false ∧ a = false ∧ m = false)) ∧
    (signApkAdvanced j a m).2 =
      (if j then [ps "jarsigner"]
       else if a then [ps "jarsigner", ps "apksigner"]
       else [ps "jarsigner", ps "apksigner", ps "manual"]) ∧
    (signApkAdvanced j a m).2 <+: [ps "jarsigner", ps "apksigner", ps "manual"] := by
  cases j <;> cases a <;> cases m <;>
    exact ⟨rfl, by decide, rfl, by decide⟩

/-- **C10**: `get_compiled_apk_path` returns the project's `signed.apk` path
whenever `os.path.exists` accepts it, else the `compiled.apk` path when that
exists, else `None` — the signed artifact is preferred unconditionally. -/
theorem claim_C10 (fe : PStr → Bool) (pf id : PStr) :
    getCompiledApkPath fe pf id =
      (if fe ((pf ++ ps "/" ++ id) ++ ps "/signed.apk") then
        some ((pf ++ ps "/" ++ id) ++ ps "/signed.apk")
       else if fe ((pf ++ ps "/" ++ id) ++ ps "/compiled.apk") then
        some ((pf ++ ps "/" ++ id) ++ ps "/compiled.apk")
       else none) := rfl
